import Mathlib

/-
  Verification development for the AdhdTimeOrganizer activity-tracking
  web extension.

  The definitions below are a shallow embedding of the extension's core:
  the pure helpers of `src/shared/utils.ts`, the tab/window state machine
  and 5-minute window aggregator of the background tracker
  (`ActivityTracker`), the token manager of `src/background/auth.ts`, the
  daily-stats fold of `updateStatsFromWindow`, and the heartbeat alarm
  listener of the background entry point.

  JavaScript `Map`s are embedded as association lists with JS `Map`
  semantics (`set` replaces the first matching key in place, `delete`
  removes the key); JS `Set`s of tab ids are embedded as duplicate-free
  lists; `setTimeout` handles are embedded as numeric timer ids drawn
  from a counter, with a list of cancelled ids standing for
  `clearTimeout`.  Timestamps (`Date.now()`) are integers in
  milliseconds.  Each event handler runs atomically, matching the
  single-threaded event-loop model of the extension host.
-/

namespace ActivityTrackingExt

/-! ## Association lists (JS `Map` embedding) -/

def alistLookup {κ α : Type} [DecidableEq κ] (k : κ) : List (κ × α) → Option α
  | [] => none
  | (k', v) :: rest => if k' = k then some v else alistLookup k rest

/-- JS `Map.delete`: remove the entry with the given key. -/
def alistErase {κ α : Type} [DecidableEq κ] (k : κ) (l : List (κ × α)) : List (κ × α) :=
  l.filter (fun p => p.1 ≠ k)

/-- JS `Map.set`: replace the first entry with the given key in place,
or append a new entry when the key is absent. -/
def alistSet {κ α : Type} [DecidableEq κ] (k : κ) (v : α) : List (κ × α) → List (κ × α)
  | [] => [(k, v)]
  | (k', v') :: rest => if k' = k then (k, v) :: rest else (k', v') :: alistSet k v rest

/-- Number of entries stored under a key. -/
def countKey {κ α : Type} [DecidableEq κ] (k : κ) (l : List (κ × α)) : Nat :=
  (l.map Prod.fst).count k

/-- Sum of a projection of the values of an association list. -/
def alistSumBy {κ α : Type} (f : α → Int) (l : List (κ × α)) : Int :=
  (l.map (fun p => f p.2)).sum

@[simp]
theorem alistLookup_nil {κ α : Type} [DecidableEq κ] (k : κ) :
    alistLookup k ([] : List (κ × α)) = none := rfl

@[simp]
theorem alistLookup_cons {κ α : Type} [DecidableEq κ] (k k' : κ) (v : α) (l : List (κ × α)) :
    alistLookup k ((k', v) :: l) = if k' = k then some v else alistLookup k l := rfl

@[simp]
theorem alistLookup_erase {κ α : Type} [DecidableEq κ] (k k' : κ) (l : List (κ × α)) :
    alistLookup k (alistErase k' l) = if k = k' then none else alistLookup k l := by
  induction l with
  | nil => simp [alistErase]
  | cons p rest ih =>
    obtain ⟨a, b⟩ := p
    by_cases h1 : a = k' <;> by_cases h2 : a = k <;>
      simp_all [alistErase, List.filter_cons, alistLookup]

@[simp]
theorem alistLookup_set {κ α : Type} [DecidableEq κ] (k k' : κ) (v : α) (l : List (κ × α)) :
    alistLookup k (alistSet k' v l) = if k = k' then some v else alistLookup k l := by
  induction l with
  | nil => by_cases h : k = k' <;> simp_all [alistSet, alistLookup, eq_comm]
  | cons p rest ih =>
    obtain ⟨a, b⟩ := p
    by_cases h1 : a = k' <;> by_cases h2 : a = k <;>
      simp_all [alistSet, alistLookup, eq_comm]

theorem countKey_eq_zero_iff {κ α : Type} [DecidableEq κ] (k : κ) (l : List (κ × α)) :
    countKey k l = 0 ↔ alistLookup k l = none := by
  induction l with
  | nil => simp [countKey]
  | cons p rest ih =>
    obtain ⟨a, b⟩ := p
    by_cases h : a = k <;> simp_all [countKey, List.count_cons]

theorem countKey_erase_self {κ α : Type} [DecidableEq κ] (k : κ) (l : List (κ × α)) :
    countKey k (alistErase k l) = 0 := by
  induction l with
  | nil => simp [countKey, alistErase]
  | cons p rest ih =>
    obtain ⟨a, b⟩ := p
    by_cases h : a = k <;> simp_all [countKey, alistErase, List.filter_cons, List.count_cons]

theorem countKey_erase_le {κ α : Type} [DecidableEq κ] (k k' : κ) (l : List (κ × α)) :
    countKey k (alistErase k' l) ≤ countKey k l := by
  induction l with
  | nil => simp [countKey, alistErase]
  | cons p rest ih =>
    obtain ⟨a, b⟩ := p
    by_cases h1 : a = k' <;> by_cases h2 : a = k <;>
      simp_all [countKey, alistErase, List.filter_cons, List.count_cons] <;> omega

theorem countKey_set_self {κ α : Type} [DecidableEq κ] (k : κ) (v : α) (l : List (κ × α)) :
    countKey k (alistSet k v l) = max (countKey k l) 1 := by
  induction l with
  | nil => simp [countKey, alistSet, List.count_cons]
  | cons p rest ih =>
    obtain ⟨a, b⟩ := p
    by_cases h : a = k <;> simp_all [countKey, alistSet, List.count_cons] <;> omega

theorem countKey_set_ne {κ α : Type} [DecidableEq κ] (k k' : κ) (v : α) (l : List (κ × α))
    (h : k ≠ k') : countKey k (alistSet k' v l) = countKey k l := by
  induction l with
  | nil => simp [countKey, alistSet, List.count_cons, h]
  | cons p rest ih =>
    obtain ⟨a, b⟩ := p
    by_cases h1 : a = k' <;> by_cases h2 : a = k <;>
      simp_all [countKey, alistSet, List.count_cons]

theorem alistSumBy_set {κ α : Type} [DecidableEq κ] (f : α → Int) (k : κ) (v : α)
    (l : List (κ × α)) :
    alistSumBy f (alistSet k v l) =
      alistSumBy f l + f v - (match alistLookup k l with | some b => f b | none => 0) := by
  induction l with
  | nil => simp [alistSumBy, alistSet]
  | cons p rest ih =>
    obtain ⟨a, b⟩ := p
    by_cases h : a = k <;> simp_all [alistSumBy, alistSet, alistLookup] <;> ring

/-! ## Domain classifier (`src/shared/utils.ts`) and the URL host model -/

/-- Scheme characters allowed after the first letter of a URL scheme
(ALPHA / DIGIT / "+" / "-" / "."). -/
def isSchemeChar (c : Char) : Bool :=
  c.isAlpha || c.isDigit || c = '+' || c = '-' || c = '.'

/-- Consume the remainder of a scheme up to and including the ":". -/
def dropSchemeTail : List Char → Option (List Char)
  | [] => none
  | c :: rest => if c = ':' then some rest else if isSchemeChar c then dropSchemeTail rest else none

/-- Split a valid "scheme:" prefix off a URL, returning the remainder,
or `none` when the input has no valid scheme (parse failure). -/
def splitScheme : List Char → Option (List Char)
  | [] => none
  | c :: rest => if c.isAlpha then dropSchemeTail rest else none

/-- The authority component: everything up to the first "/", "?" or "#". -/
def authorityOf (cs : List Char) : List Char :=
  cs.takeWhile (fun c => !(c = '/' || c = '?' || c = '#'))

/-- The host-and-port part of an authority: everything after the last "@"
(userinfo is discarded, as the URL standard prescribes). -/
def afterLastAt (cs : List Char) : List Char :=
  (cs.reverse.takeWhile (fun c => c ≠ '@')).reverse

/-- Strip a ":port" suffix: keep everything before the first ":". -/
def beforeColon (cs : List Char) : List Char :=
  cs.takeWhile (fun c => c ≠ ':')

/-- Characters accepted in a registrable host by this model. -/
def isHostChar (c : Char) : Bool :=
  c.isLower || c.isUpper || c.isDigit || c = '-' || c = '.' || c = '_' || c = '~'

/-- ASCII lowercasing of one character, as host normalization performs it. -/
def lowerChar (c : Char) : Char :=
  if 65 ≤ c.toNat ∧ c.toNat ≤ 90 then Char.ofNat (c.toNat + 32) else c

/-- Modelled from the spec: the host platform's WHATWG `URL` parser is not
part of this repository, so `new URL(url).hostname` is modelled here.  A
URL must start with a valid "scheme:"; a URL with a "//" authority yields
its host (userinfo and port stripped, ASCII-lowercased, rejected when
empty or containing a character outside the model's host alphabet); a URL
without an authority parses with an empty hostname.  IPv6 literals,
IDNA and percent-encoded hosts are outside the model. -/
def urlHostnameChars (cs : List Char) : Option (List Char) :=
  match splitScheme cs with
  | none => none
  | some rest =>
    match rest with
    | '/' :: '/' :: tail =>
      let host := beforeColon (afterLastAt (authorityOf tail))
      if host = [] then none
      else if host.all isHostChar then some (host.map lowerChar) else none
    | _ => some []

/-- `new URL(url).hostname`, at `String` level. -/
def urlHostname (s : String) : Option String :=
  (urlHostnameChars s.data).map List.asString

/-- Strip one leading "www." prefix (`hostname.substring(4)` in the source). -/
def stripWww (h : List Char) : List Char :=
  if h.take 4 = ['w', 'w', 'w', '.'] then h.drop 4 else h

/-- `extractDomain` from `src/shared/utils.ts`: hostname of the URL with a
leading "www." stripped; the empty string when `new URL` throws. -/
def extractDomain (url : String) : String :=
  match urlHostnameChars url.data with
  | none => ""
  | some hostname => (stripWww hostname).asString

/-- `p` is a leading run of the second list (computable embedding of
JavaScript `String.startsWith`). -/
def leadsWith : List Char → List Char → Bool
  | [], _ => true
  | _ :: _, [] => false
  | p :: ps, c :: cs => p = c && leadsWith ps cs

/-- JavaScript `url.startsWith(p)`. -/
def strStartsWith (s p : String) : Bool :=
  leadsWith p.data s.data

/-- JavaScript `domain.endsWith(p)`. -/
def strEndsWith (s p : String) : Bool :=
  leadsWith p.data.reverse s.data.reverse

/-- `isDomainBlocked` from `src/shared/utils.ts`. -/
def isDomainBlocked (domain : String) (blocklist : List String) : Bool :=
  blocklist.any (fun blocked => domain = blocked || strEndsWith domain ("." ++ blocked))

/-- `UserSettings` from `src/shared/types.ts`. -/
structure UserSettings where
  blocklist : List String
  trackFullUrlDomains : List String
  deriving Repr, DecidableEq

/-- `shouldTrackFullUrl` from `src/shared/utils.ts`. -/
def shouldTrackFullUrl (domain : String) (settings : UserSettings) : Bool :=
  settings.trackFullUrlDomains.any
    (fun trackDomain => domain = trackDomain || strEndsWith domain ("." ++ trackDomain))

/-- The non-trackable URL scheme list from `src/shared/utils.ts`. -/
def nonTrackablePrefixes : List String :=
  ["chrome://", "chrome-extension://", "moz-extension://", "edge://",
   "about:", "file://", "data:", "javascript:", "blob:"]

/-- `isTrackableUrl` from `src/shared/utils.ts`: the empty string is falsy,
otherwise no internal scheme may lead the URL. -/
def isTrackableUrl (url : String) : Bool :=
  if url = "" then false
  else !(nonTrackablePrefixes.any (fun p => strStartsWith url p))

/-! ## Tracker data model (`ActivityTracker` in the background tracker) -/

/-- `TabState` from `src/shared/types.ts`. -/
structure TabState where
  tabId : Nat
  domain : String
  url : String
  isBackground : Bool
  startTime : Int
  isTracking : Bool
  deriving Repr, DecidableEq

/-- `PendingTabState` from the background tracker: a debounced
"confirm tracking" action with its `setTimeout` handle. -/
structure PendingTabState where
  tabId : Nat
  domain : String
  url : String
  isBackground : Bool
  scheduledTime : Int
  timeoutId : Nat
  deriving Repr, DecidableEq

/-- `DomainBuffer` from the background tracker. -/
structure DomainBuffer where
  activeSeconds : Int
  backgroundSeconds : Int
  urlVisits : List (String × Int)
  deriving Repr, DecidableEq

/-- `ActivityBuffer` from the background tracker: the current 5-minute
aggregation window. -/
structure ActivityBuffer where
  windowStart : Int
  domains : List (String × DomainBuffer)
  deriving Repr, DecidableEq

def WINDOW_DURATION_MS : Int := 5 * 60 * 1000

/-- The mutable fields of the `ActivityTracker` singleton.  `setTimeout`
handles live in `pendingStarts`; `cancelledTimers` records every handle
passed to `clearTimeout`, and `nextTimerId` supplies fresh handles. -/
structure TrackerState where
  activeTab : Option TabState
  backgroundTabs : List (Nat × TabState)
  visibleTabs : List Nat
  audibleTabs : List Nat
  videoPlayingTabs : List Nat
  isIdle : Bool
  isPaused : Bool
  settings : UserSettings
  pendingStarts : List (Nat × PendingTabState)
  cancelledTimers : List Nat
  nextTimerId : Nat
  activityBuffer : Option ActivityBuffer
  lastTickAt : Int
  deriving Repr, DecidableEq

/-- JS `Set.add` on a tab-id set. -/
def addTab (tabId : Nat) (l : List Nat) : List Nat :=
  if l.contains tabId then l else tabId :: l

/-- JS `Set.delete` on a tab-id set. -/
def removeTab (tabId : Nat) (l : List Nat) : List Nat :=
  l.filter (fun x => x ≠ tabId)

/-- `this.activeTab?.tabId === tabId`. -/
def activeTabIs (st : TrackerState) (tabId : Nat) : Bool :=
  match st.activeTab with
  | some a => a.tabId = tabId
  | none => false

/-- `roundToWindowBoundary` from the background tracker:
`Math.floor(timestamp / WINDOW_DURATION_MS) * WINDOW_DURATION_MS`. -/
def roundToWindowBoundary (timestamp : Int) : Int :=
  Int.fdiv timestamp WINDOW_DURATION_MS * WINDOW_DURATION_MS

/-! ## Tab state machine operations -/

/-- `endActiveTracking`: cancel a non-background pending start for the
active tab, then drop the active `TabRecord` (the elapsed duration is
only logged in the source). -/
def endActiveTracking (st : TrackerState) : TrackerState :=
  let st :=
    match st.activeTab with
    | some a =>
      match alistLookup a.tabId st.pendingStarts with
      | some p =>
        if p.isBackground = false then
          { st with pendingStarts := alistErase a.tabId st.pendingStarts,
                    cancelledTimers := p.timeoutId :: st.cancelledTimers }
        else st
      | none => st
    | none => st
  { st with activeTab := none }

/-- `endBackgroundTracking`: cancel a background pending start for the
tab, then remove it from the background map (the duration is only
logged). -/
def endBackgroundTracking (tabId : Nat) (st : TrackerState) : TrackerState :=
  let st :=
    match alistLookup tabId st.pendingStarts with
    | some p =>
      if p.isBackground = true then
        { st with pendingStarts := alistErase tabId st.pendingStarts,
                  cancelledTimers := p.timeoutId :: st.cancelledTimers }
      else st
    | none => st
  { st with backgroundTabs := alistErase tabId st.backgroundTabs }

/-- The shared "cancel any existing pending start for this tab" block. -/
def cancelExistingPending (tabId : Nat) (st : TrackerState) : TrackerState :=
  match alistLookup tabId st.pendingStarts with
  | some p =>
    { st with pendingStarts := alistErase tabId st.pendingStarts,
              cancelledTimers := p.timeoutId :: st.cancelledTimers }
  | none => st

/-- `startActiveTracking`: cancel any pending start for the tab, end the
previous active tracking, then schedule a debounced active start. -/
def startActiveTracking (tabId : Nat) (url domain : String) (now : Int)
    (st : TrackerState) : TrackerState :=
  let st := cancelExistingPending tabId st
  let st := endActiveTracking st
  { st with
      pendingStarts :=
        alistSet tabId ⟨tabId, domain, url, false, now, st.nextTimerId⟩ st.pendingStarts,
      nextTimerId := st.nextTimerId + 1 }

/-- `confirmActiveStart`: install the active `TabRecord`. -/
def confirmActiveStart (tabId : Nat) (url domain : String) (now : Int)
    (st : TrackerState) : TrackerState :=
  { st with activeTab := some ⟨tabId, domain, url, false, now, true⟩ }

/-- `maybeStartBackgroundTracking`: guarded debounced background start. -/
def maybeStartBackgroundTracking (tabId : Nat) (url : String) (now : Int)
    (st : TrackerState) : TrackerState :=
  if st.isPaused || st.isIdle then st
  else if (alistLookup tabId st.backgroundTabs).isSome then st
  else if activeTabIs st tabId then st
  else if !isTrackableUrl url then st
  else
    let domain := extractDomain url
    if isDomainBlocked domain st.settings.blocklist then st
    else
      let isVisible := st.visibleTabs.contains tabId
      let isAudible := st.audibleTabs.contains tabId
      let hasPlayingVideo := st.videoPlayingTabs.contains tabId
      if !isVisible && !isAudible && !hasPlayingVideo then st
      else
        let st := cancelExistingPending tabId st
        { st with
            pendingStarts :=
              alistSet tabId ⟨tabId, domain, url, true, now, st.nextTimerId⟩ st.pendingStarts,
            nextTimerId := st.nextTimerId + 1 }

/-- `confirmBackgroundStart`: install the background `TabRecord`. -/
def confirmBackgroundStart (tabId : Nat) (url domain : String) (now : Int)
    (st : TrackerState) : TrackerState :=
  { st with backgroundTabs := alistSet tabId ⟨tabId, domain, url, true, now, true⟩ st.backgroundTabs }

/-- The `setTimeout` callback of a pending start: delete the pending
record, then run the confirmation.  A cancelled timer never fires because
cancellation always deletes the pending record first. -/
def firePendingTimer (tabId : Nat) (now : Int) (st : TrackerState) : TrackerState :=
  match alistLookup tabId st.pendingStarts with
  | none => st
  | some p =>
    let st := { st with pendingStarts := alistErase tabId st.pendingStarts }
    if p.isBackground then confirmBackgroundStart tabId p.url p.domain now st
    else confirmActiveStart tabId p.url p.domain now st

/-- `handleTabActivated`.  `windowFocused` is the awaited
`browser.windows.get(windowId).focused`; `tabUrl` is the awaited
`browser.tabs.get(tabId).url` (`none` for a tab without a URL). -/
def handleTabActivated (tabId : Nat) (windowFocused : Bool) (tabUrl : Option String)
    (now : Int) (st : TrackerState) : TrackerState :=
  if st.isPaused then st
  else if !windowFocused then st
  else
    match tabUrl with
    | none => endActiveTracking st
    | some url =>
      if !isTrackableUrl url then endActiveTracking st
      else
        let domain := extractDomain url
        if isDomainBlocked domain st.settings.blocklist then endActiveTracking st
        else startActiveTracking tabId url domain now (endBackgroundTracking tabId st)

/-- The environment of a window-focus-change event, as the handler
observes it through the awaited `browser.windows` / `browser.tabs`
queries. -/
inductive FocusChange where
  /-- The newly focused window is the extension's own popup (either a
  focused popup window whose tab URL starts with the extension's own URL,
  or `WINDOW_ID_NONE` while such a popup is focused). -/
  | ownPopup : FocusChange
  /-- A normal window gained focus and `tabId` is its active tab, with
  `windowFocused` and `tabUrl` as the nested `handleTabActivated` will
  observe them. -/
  | gainedFocus (tabId : Nat) (windowFocused : Bool) (tabUrl : Option String) : FocusChange
  /-- A window gained focus but the active-tab query returned nothing. -/
  | gainedFocusNoTab : FocusChange
  /-- `WINDOW_ID_NONE`: the browser lost OS focus. -/
  | lostFocus : FocusChange

/-- `handleWindowFocusChanged`. -/
def handleWindowFocusChanged (ev : FocusChange) (now : Int) (st : TrackerState) : TrackerState :=
  if st.isPaused then st
  else
    match ev with
    | .ownPopup => st
    | .gainedFocus tabId windowFocused tabUrl =>
      handleTabActivated tabId windowFocused tabUrl now st
    | .gainedFocusNoTab => st
    | .lostFocus =>
      match st.activeTab with
      | none => st
      | some wasActive =>
        let st := endActiveTracking st
        if st.visibleTabs.contains wasActive.tabId || st.audibleTabs.contains wasActive.tabId then
          maybeStartBackgroundTracking wasActive.tabId wasActive.url now st
        else st

/-- The background-tab part of `handleTabUrlChanged` (reached when the
changed tab is not the active tab). -/
def handleTabUrlChangedBackground (tabId : Nat) (url domain : String)
    (isBlocked isTrackable : Bool) (now : Int) (st : TrackerState) : TrackerState :=
  match alistLookup tabId st.backgroundTabs with
  | some bgTab =>
    if !isTrackable || isBlocked then endBackgroundTracking tabId st
    else if bgTab.domain ≠ domain then
      maybeStartBackgroundTracking tabId url now (endBackgroundTracking tabId st)
    else { st with backgroundTabs := alistSet tabId { bgTab with url := url } st.backgroundTabs }
  | none => st

/-- `handleTabUrlChanged`. -/
def handleTabUrlChanged (tabId : Nat) (url : String) (now : Int)
    (st : TrackerState) : TrackerState :=
  if st.isPaused then st
  else
    let domain := extractDomain url
    let isBlocked := isDomainBlocked domain st.settings.blocklist
    let isTrackable := isTrackableUrl url
    match st.activeTab with
    | some a =>
      if a.tabId = tabId then
        if !isTrackable || isBlocked then endActiveTracking st
        else if a.domain ≠ domain then
          startActiveTracking tabId url domain now (endActiveTracking st)
        else { st with activeTab := some { a with url := url } }
      else handleTabUrlChangedBackground tabId url domain isBlocked isTrackable now st
    | none => handleTabUrlChangedBackground tabId url domain isBlocked isTrackable now st

/-- `handleTabAudibleChanged`.  `tabUrl` is the awaited
`browser.tabs.get(tabId).url` (queried only on the audible edge). -/
def handleTabAudibleChanged (tabId : Nat) (audible : Bool) (tabUrl : Option String)
    (now : Int) (st : TrackerState) : TrackerState :=
  if audible then
    let st := { st with audibleTabs := addTab tabId st.audibleTabs }
    if activeTabIs st tabId then st
    else
      match tabUrl with
      | some url => if url = "" then st else maybeStartBackgroundTracking tabId url now st
      | none => st
  else
    let st := { st with audibleTabs := removeTab tabId st.audibleTabs }
    if !st.visibleTabs.contains tabId && !st.videoPlayingTabs.contains tabId then
      endBackgroundTracking tabId st
    else st

/-- `handleVisibilityChanged`. -/
def handleVisibilityChanged (tabId : Nat) (isVisible : Bool) (tabUrl : Option String)
    (now : Int) (st : TrackerState) : TrackerState :=
  if isVisible then
    let st := { st with visibleTabs := addTab tabId st.visibleTabs }
    if activeTabIs st tabId then st
    else
      match tabUrl with
      | some url => if url = "" then st else maybeStartBackgroundTracking tabId url now st
      | none => st
  else
    let st := { st with visibleTabs := removeTab tabId st.visibleTabs }
    if !st.audibleTabs.contains tabId && !st.videoPlayingTabs.contains tabId then
      endBackgroundTracking tabId st
    else st

/-- `handleVideoPlayingChanged`. -/
def handleVideoPlayingChanged (tabId : Nat) (hasPlayingVideo : Bool) (tabUrl : Option String)
    (now : Int) (st : TrackerState) : TrackerState :=
  if hasPlayingVideo then
    let st := { st with videoPlayingTabs := addTab tabId st.videoPlayingTabs }
    if activeTabIs st tabId then st
    else
      match tabUrl with
      | some url => if url = "" then st else maybeStartBackgroundTracking tabId url now st
      | none => st
  else
    let st := { st with videoPlayingTabs := removeTab tabId st.videoPlayingTabs }
    if !st.visibleTabs.contains tabId && !st.audibleTabs.contains tabId then
      endBackgroundTracking tabId st
    else st

/-- `handleTabRemoved`. -/
def handleTabRemoved (tabId : Nat) (st : TrackerState) : TrackerState :=
  let st := cancelExistingPending tabId st
  let st := { st with
      visibleTabs := removeTab tabId st.visibleTabs,
      audibleTabs := removeTab tabId st.audibleTabs,
      videoPlayingTabs := removeTab tabId st.videoPlayingTabs }
  let st := if activeTabIs st tabId then endActiveTracking st else st
  endBackgroundTracking tabId st

/-- End background tracking of every tab in the background map
(the `for (const tabId of this.backgroundTabs.keys())` loops). -/
def endAllBackground (st : TrackerState) : TrackerState :=
  (st.backgroundTabs.map Prod.fst).foldl (fun s tid => endBackgroundTracking tid s) st

/-- `handleIdleStateChanged`.  On idle-enter all tracking is torn down;
on idle-exit the source re-derives state from the live browser
(`initializeCurrentState`), which is modelled as subsequent separate
steps of the event system. -/
def handleIdleStateChanged (newState : String) (st : TrackerState) : TrackerState :=
  let wasIdle := st.isIdle
  let st := { st with isIdle := newState ≠ "active" }
  if st.isIdle && !wasIdle then endAllBackground (endActiveTracking st)
  else st

/-- `setPaused`.  Pausing tears all tracking down and clears every
pending start; resuming re-derives state from the live browser, modelled
as subsequent separate steps. -/
def setPaused (paused : Bool) (st : TrackerState) : TrackerState :=
  if st.isPaused = paused then st
  else
    let st := { st with isPaused := paused }
    if paused then
      let st := endAllBackground (endActiveTracking st)
      { st with
          cancelledTimers := st.pendingStarts.map (fun p => p.2.timeoutId) ++ st.cancelledTimers,
          pendingStarts := [] }
    else st

/-! ## Window aggregator -/

/-- `createNewBuffer`: a fresh empty window aligned to the 5-minute
boundary of `now`, replacing whatever buffer was stored. -/
def createNewBuffer (now : Int) (st : TrackerState) : TrackerState :=
  { st with activityBuffer := some ⟨roundToWindowBoundary now, []⟩ }

/-- `urlVisits.set(url, (urlVisits.get(url) || 0) + elapsedSeconds)`. -/
def bumpUrlVisit (url : String) (elapsedSeconds : Int)
    (visits : List (String × Int)) : List (String × Int) :=
  alistSet url ((alistLookup url visits).getD 0 + elapsedSeconds) visits

/-- The active-tab attribution block of `onTick`: ensure the domain
bucket exists, add the elapsed seconds to `activeSeconds`, and bump the
per-URL seconds when full-URL tracking is configured. -/
def attributeActive (domain url : String) (trackUrl : Bool) (elapsedSeconds : Int)
    (doms : List (String × DomainBuffer)) : List (String × DomainBuffer) :=
  let doms :=
    if (alistLookup domain doms).isNone then alistSet domain ⟨0, 0, []⟩ doms else doms
  match alistLookup domain doms with
  | some buffer =>
    alistSet domain
      ⟨buffer.activeSeconds + elapsedSeconds, buffer.backgroundSeconds,
       if trackUrl then bumpUrlVisit url elapsedSeconds buffer.urlVisits else buffer.urlVisits⟩
      doms
  | none => doms

/-- The background-tab attribution block of `onTick`. -/
def attributeBackground (domain url : String) (trackUrl : Bool) (elapsedSeconds : Int)
    (doms : List (String × DomainBuffer)) : List (String × DomainBuffer) :=
  let doms :=
    if (alistLookup domain doms).isNone then alistSet domain ⟨0, 0, []⟩ doms else doms
  match alistLookup domain doms with
  | some buffer =>
    alistSet domain
      ⟨buffer.activeSeconds, buffer.backgroundSeconds + elapsedSeconds,
       if trackUrl then bumpUrlVisit url elapsedSeconds buffer.urlVisits else buffer.urlVisits⟩
      doms
  | none => doms

/-- The rotation-and-ensure part of `onTick`: a stored window whose
5-minute bucket differs from the bucket of `now` is replaced by a fresh
empty window (`createNewBuffer`), as is a missing buffer. -/
def rotateBuffer (now : Int) (buf : Option ActivityBuffer) : ActivityBuffer :=
  match buf with
  | some b =>
    if b.windowStart ≠ roundToWindowBoundary now then ⟨roundToWindowBoundary now, []⟩ else b
  | none => ⟨roundToWindowBoundary now, []⟩

/-- `onTick`: compute the elapsed whole seconds since the last tick,
remember the tick time, and — unless paused, idle, or no time elapsed —
rotate the window if its 5-minute bucket is stale and attribute the
elapsed seconds to the active tab's domain and to every tracking
background tab's domain.  (`persistBuffer` only writes storage.) -/
def onTick (now : Int) (st : TrackerState) : TrackerState :=
  let elapsedSeconds := Int.fdiv (now - st.lastTickAt) 1000
  let st := { st with lastTickAt := now }
  if elapsedSeconds ≤ 0 || st.isPaused || st.isIdle then st
  else
    let buf := rotateBuffer now st.activityBuffer
    let doms := buf.domains
    let doms :=
      match st.activeTab with
      | some a =>
        if a.isTracking then
          attributeActive a.domain a.url (shouldTrackFullUrl a.domain st.settings)
            elapsedSeconds doms
        else doms
      | none => doms
    let doms :=
      (st.backgroundTabs.map Prod.snd).foldl
        (fun d bgTab =>
          if bgTab.isTracking then
            attributeBackground bgTab.domain bgTab.url
              (shouldTrackFullUrl bgTab.domain st.settings) elapsedSeconds d
          else d)
        doms
    { st with activityBuffer := some ⟨buf.windowStart, doms⟩ }

/-- `WindowActivity` from `src/shared/types.ts` (the per-domain row of a
reported window). -/
structure WindowActivity where
  domain : String
  url : Option String
  activeSeconds : Int
  backgroundSeconds : Int
  deriving Repr, DecidableEq

/-- `ActivityWindow` from `src/shared/types.ts`.  `windowStart` is kept
as the millisecond timestamp that the source renders as an ISO string. -/
structure ActivityWindow where
  windowStart : Int
  windowMinutes : Nat
  isFinal : Bool
  activities : List WindowActivity
  deriving Repr, DecidableEq

/-- The most-visited-URL scan of `getActivityWindow`: the first URL whose
seconds strictly exceed every earlier maximum (starting from 0). -/
def mostVisitedUrl (visits : List (String × Int)) : Option String :=
  (visits.foldl
    (fun acc p => if p.2 > acc.2 then (some p.1, p.2) else acc)
    ((none : Option String), (0 : Int))).1

/-- `getActivityWindow`: `null` when there is no buffer or no attributed
domain; otherwise a snapshot whose `isFinal` is computed lazily by
comparing the stored bucket with the bucket of `now`. -/
def getActivityWindow (now : Int) (st : TrackerState) : Option ActivityWindow :=
  match st.activityBuffer with
  | none => none
  | some buf =>
    if buf.domains.length = 0 then none
    else
      some
        ⟨buf.windowStart, 5, decide (buf.windowStart < roundToWindowBoundary now),
         buf.domains.map (fun p =>
           ⟨p.1,
            (match mostVisitedUrl p.2.urlVisits with
             | some u => if shouldTrackFullUrl p.1 st.settings then some u else none
             | none => none),
            p.2.activeSeconds, p.2.backgroundSeconds⟩)⟩

/-- `clearCurrentBuffer`: discard the current window and start a new one
(`persistBuffer` only writes storage). -/
def clearCurrentBuffer (now : Int) (st : TrackerState) : TrackerState :=
  createNewBuffer now st

/-! ## Token lifecycle manager (`src/background/auth.ts`) -/

/-- `AuthTokens` from `src/shared/types.ts`. -/
structure AuthTokens where
  accessToken : String
  refreshToken : String
  expiresAt : Int
  deriving Repr, DecidableEq

/-- The token-holding state of the `AuthManager` singleton. -/
structure AuthMState where
  tokens : Option AuthTokens
  deriving Repr, DecidableEq

/-- `getAccessToken`: the stored access token when tokens exist and have
not expired, else `null`.  The returned second component is the manager
state after the call; the method reads `this.tokens` and never mutates or
refreshes, which the theorem `getAccessToken_no_refresh_spec` records. -/
def getAccessToken (st : AuthMState) (now : Int) : Option String × AuthMState :=
  match st.tokens with
  | none => (none, st)
  | some t => if t.expiresAt ≤ now then (none, st) else (some t.accessToken, st)

/-- `isAuthenticated`: tokens exist and `expiresAt > now`. -/
def isAuthenticated (st : AuthMState) (now : Int) : Bool :=
  match st.tokens with
  | none => false
  | some t => now < t.expiresAt

/-! ## Daily statistics (`updateStatsFromWindow` in the storage module) -/

/-- `DomainStat` from `src/shared/types.ts`. -/
structure DomainStat where
  domain : String
  activeTime : Int
  backgroundTime : Int
  visits : Int
  deriving Repr, DecidableEq

/-- `DailyStats` from `src/shared/types.ts`. -/
structure DailyStats where
  date : String
  totalActiveTime : Int
  totalBackgroundTime : Int
  domainStats : List (String × DomainStat)
  deriving Repr, DecidableEq

/-- One iteration of the `updateStatsFromWindow` loop. -/
def foldActivityIntoStats (s : DailyStats) (activity : WindowActivity) : DailyStats :=
  let d := activity.domain
  let ds :=
    match alistLookup d s.domainStats with
    | some ds => ds
    | none => ⟨d, 0, 0, 0⟩
  let activeMs := activity.activeSeconds * 1000
  let backgroundMs := activity.backgroundSeconds * 1000
  { s with
      domainStats :=
        alistSet d ⟨ds.domain, ds.activeTime + activeMs, ds.backgroundTime + backgroundMs,
                    ds.visits + 1⟩ s.domainStats,
      totalActiveTime := s.totalActiveTime + activeMs,
      totalBackgroundTime := s.totalBackgroundTime + backgroundMs }

/-- `updateStatsFromWindow`: fold every activity of the delivered window
into the daily stats (`stats` is the record `getDailyStats` returned for
today). -/
def updateStatsFromWindow (w : ActivityWindow) (stats : DailyStats) : DailyStats :=
  w.activities.foldl foldActivityIntoStats stats

/-! ## Heartbeat alarm listener (background entry point) -/

/-- The heartbeat `alarms.onAlarm` listener: when authenticated, read the
current window and attempt delivery (`sendSuccess` is the network
outcome of `sendHeartbeat`); on success of a final window, fold it into
the daily stats and clear the aggregator's buffer. -/
def handleHeartbeatAlarm (auth : AuthMState) (sendSuccess : Bool) (now : Int)
    (st : TrackerState) (stats : DailyStats) : TrackerState × DailyStats :=
  if isAuthenticated auth now then
    match getActivityWindow now st with
    | some w =>
      if sendSuccess && w.isFinal then
        (clearCurrentBuffer now st, updateStatsFromWindow w stats)
      else (st, stats)
    | none => (st, stats)
  else (st, stats)

/-! ## The event system: initial state, steps, reachability -/

/-- The tracker's constructor state as `initialize` leaves the in-memory
tab bookkeeping: no active tab, no background tabs, no pendings.  The
persisted pause flag, settings, the loaded-or-created buffer and the
ticker start time are parameters (they are read from storage / the
clock); every event the initializer replays is a `Step`. -/
def initialTracker (t0 : Int) (settings : UserSettings) (isPaused : Bool)
    (buffer : Option ActivityBuffer) : TrackerState :=
  { activeTab := none
    backgroundTabs := []
    visibleTabs := []
    audibleTabs := []
    videoPlayingTabs := []
    isIdle := false
    isPaused := isPaused
    settings := settings
    pendingStarts := []
    cancelledTimers := []
    nextTimerId := 0
    activityBuffer := buffer
    lastTickAt := t0 }

/-- One atomic reaction of the tracker to an external event: a browser
event handler run, a debounce timer firing, a ticker tick, a pause
toggle, a heartbeat-triggered buffer clear, a settings update, or one of
the actions `initializeCurrentState` replays (audible registration,
background probing, the initial idle query). -/
inductive Step : TrackerState → TrackerState → Prop where
  | tabActivated (st : TrackerState) (tabId : Nat) (windowFocused : Bool)
      (tabUrl : Option String) (now : Int) :
      Step st (handleTabActivated tabId windowFocused tabUrl now st)
  | windowFocusChanged (st : TrackerState) (ev : FocusChange) (now : Int) :
      Step st (handleWindowFocusChanged ev now st)
  | tabUrlChanged (st : TrackerState) (tabId : Nat) (url : String) (now : Int) :
      Step st (handleTabUrlChanged tabId url now st)
  | tabAudibleChanged (st : TrackerState) (tabId : Nat) (audible : Bool)
      (tabUrl : Option String) (now : Int) :
      Step st (handleTabAudibleChanged tabId audible tabUrl now st)
  | visibilityChanged (st : TrackerState) (tabId : Nat) (isVisible : Bool)
      (tabUrl : Option String) (now : Int) :
      Step st (handleVisibilityChanged tabId isVisible tabUrl now st)
  | videoPlayingChanged (st : TrackerState) (tabId : Nat) (hasPlayingVideo : Bool)
      (tabUrl : Option String) (now : Int) :
      Step st (handleVideoPlayingChanged tabId hasPlayingVideo tabUrl now st)
  | tabRemoved (st : TrackerState) (tabId : Nat) :
      Step st (handleTabRemoved tabId st)
  | idleStateChanged (st : TrackerState) (newState : String) :
      Step st (handleIdleStateChanged newState st)
  | pendingTimerFired (st : TrackerState) (tabId : Nat) (now : Int) :
      Step st (firePendingTimer tabId now st)
  | pauseChanged (st : TrackerState) (paused : Bool) :
      Step st (setPaused paused st)
  | tick (st : TrackerState) (now : Int) :
      Step st (onTick now st)
  | bufferCleared (st : TrackerState) (now : Int) :
      Step st (clearCurrentBuffer now st)
  | settingsChanged (st : TrackerState) (s : UserSettings) :
      Step st { st with settings := s }
  | initAudibleAdd (st : TrackerState) (tabId : Nat) :
      Step st { st with audibleTabs := addTab tabId st.audibleTabs }
  | initMaybeBackground (st : TrackerState) (tabId : Nat) (url : String) (now : Int) :
      Step st (maybeStartBackgroundTracking tabId url now st)
  | initQueryIdle (st : TrackerState) :
      Step st { st with isIdle := true }

/-- The tracker states the event system can reach. -/
inductive Reachable : TrackerState → Prop where
  | init (t0 : Int) (settings : UserSettings) (isPaused : Bool)
      (buffer : Option ActivityBuffer) :
      Reachable (initialTracker t0 settings isPaused buffer)
  | step {st st' : TrackerState} : Reachable st → Step st st' → Reachable st'

/-- The mutual-exclusion invariant of the tab state machine: the active
tab is never in the background map, a non-background pending start only
exists for a tab outside the background map, and a background pending
start only exists for a tab that is not the active tab. -/
def TabInv (st : TrackerState) : Prop :=
  (∀ a : TabState, st.activeTab = some a → alistLookup a.tabId st.backgroundTabs = none) ∧
  (∀ (k : Nat) (p : PendingTabState), alistLookup k st.pendingStarts = some p →
    p.isBackground = false → alistLookup k st.backgroundTabs = none) ∧
  (∀ (k : Nat) (p : PendingTabState), alistLookup k st.pendingStarts = some p →
    p.isBackground = true → ∀ a : TabState, st.activeTab = some a → a.tabId ≠ k)

/-! ## Characterization lemmas for the atomic operations -/

theorem tabInv_congr {st st' : TrackerState}
    (h1 : st'.activeTab = st.activeTab) (h2 : st'.backgroundTabs = st.backgroundTabs)
    (h3 : st'.pendingStarts = st.pendingStarts) (h : TabInv st) : TabInv st' := by
  unfold TabInv at h ⊢
  rw [h1, h2, h3]
  exact h

theorem endActiveTracking_activeTab (st : TrackerState) :
    (endActiveTracking st).activeTab = none := by
  unfold endActiveTracking
  repeat' split
  all_goals rfl

theorem endActiveTracking_backgroundTabs (st : TrackerState) :
    (endActiveTracking st).backgroundTabs = st.backgroundTabs := by
  unfold endActiveTracking
  repeat' split
  all_goals rfl

theorem alistLookup_erase_some {κ α : Type} [DecidableEq κ] {k k' : κ} {l : List (κ × α)}
    {v : α} (h : alistLookup k (alistErase k' l) = some v) : alistLookup k l = some v := by
  rw [alistLookup_erase] at h
  split at h
  · exact absurd h (by simp)
  · exact h

theorem endActiveTracking_pending (st : TrackerState) (k : Nat) (p : PendingTabState)
    (h : alistLookup k (endActiveTracking st).pendingStarts = some p) :
    alistLookup k st.pendingStarts = some p := by
  unfold endActiveTracking at h
  revert h
  repeat' split
  all_goals intro h
  all_goals first
    | exact h
    | exact alistLookup_erase_some h

theorem endBackgroundTracking_activeTab (tabId : Nat) (st : TrackerState) :
    (endBackgroundTracking tabId st).activeTab = st.activeTab := by
  unfold endBackgroundTracking
  repeat' split
  all_goals rfl

theorem endBackgroundTracking_backgroundTabs (tabId : Nat) (st : TrackerState) :
    (endBackgroundTracking tabId st).backgroundTabs = alistErase tabId st.backgroundTabs := by
  unfold endBackgroundTracking
  repeat' split
  all_goals rfl

theorem endBackgroundTracking_pending (tabId : Nat) (st : TrackerState) (k : Nat)
    (p : PendingTabState)
    (h : alistLookup k (endBackgroundTracking tabId st).pendingStarts = some p) :
    alistLookup k st.pendingStarts = some p := by
  unfold endBackgroundTracking at h
  revert h
  repeat' split
  all_goals intro h
  all_goals first
    | exact h
    | exact alistLookup_erase_some h

theorem cancelExistingPending_activeTab (tabId : Nat) (st : TrackerState) :
    (cancelExistingPending tabId st).activeTab = st.activeTab := by
  unfold cancelExistingPending
  split <;> rfl

theorem cancelExistingPending_backgroundTabs (tabId : Nat) (st : TrackerState) :
    (cancelExistingPending tabId st).backgroundTabs = st.backgroundTabs := by
  unfold cancelExistingPending
  split <;> rfl

theorem cancelExistingPending_pending (tabId : Nat) (st : TrackerState) (k : Nat)
    (p : PendingTabState)
    (h : alistLookup k (cancelExistingPending tabId st).pendingStarts = some p) :
    alistLookup k st.pendingStarts = some p := by
  unfold cancelExistingPending at h
  revert h
  split
  all_goals intro h
  all_goals first
    | exact h
    | exact alistLookup_erase_some h

/-! ## Preservation of the `TabInv` mutual-exclusion invariant -/

theorem tabInv_endActiveTracking {st : TrackerState} (h : TabInv st) :
    TabInv (endActiveTracking st) := by
  obtain ⟨-, h2, -⟩ := h
  refine ⟨?_, ?_, ?_⟩
  · intro a ha
    rw [endActiveTracking_activeTab] at ha
    exact absurd ha (by simp)
  · intro k p hp hbg
    rw [endActiveTracking_backgroundTabs]
    exact h2 k p (endActiveTracking_pending st k p hp) hbg
  · intro k p hp hbg a ha
    rw [endActiveTracking_activeTab] at ha
    exact absurd ha (by simp)

theorem tabInv_endBackgroundTracking {st : TrackerState} (tabId : Nat) (h : TabInv st) :
    TabInv (endBackgroundTracking tabId st) := by
  obtain ⟨h1, h2, h3⟩ := h
  refine ⟨?_, ?_, ?_⟩
  · intro a ha
    rw [endBackgroundTracking_activeTab] at ha
    rw [endBackgroundTracking_backgroundTabs, alistLookup_erase]
    split
    · rfl
    · exact h1 a ha
  · intro k p hp hbg
    rw [endBackgroundTracking_backgroundTabs, alistLookup_erase]
    split
    · rfl
    · exact h2 k p (endBackgroundTracking_pending tabId st k p hp) hbg
  · intro k p hp hbg a ha
    rw [endBackgroundTracking_activeTab] at ha
    exact h3 k p (endBackgroundTracking_pending tabId st k p hp) hbg a ha

theorem tabInv_endAllBackground {st : TrackerState} (h : TabInv st) :
    TabInv (endAllBackground st) := by
  unfold endAllBackground
  generalize st.backgroundTabs.map Prod.fst = ks
  induction ks generalizing st with
  | nil => exact h
  | cons k ks ih => exact ih (tabInv_endBackgroundTracking k h)

theorem tabInv_cancelExistingPending {st : TrackerState} (tabId : Nat) (h : TabInv st) :
    TabInv (cancelExistingPending tabId st) := by
  obtain ⟨h1, h2, h3⟩ := h
  refine ⟨?_, ?_, ?_⟩
  · intro a ha
    rw [cancelExistingPending_activeTab] at ha
    rw [cancelExistingPending_backgroundTabs]
    exact h1 a ha
  · intro k p hp hbg
    rw [cancelExistingPending_backgroundTabs]
    exact h2 k p (cancelExistingPending_pending tabId st k p hp) hbg
  · intro k p hp hbg a ha
    rw [cancelExistingPending_activeTab] at ha
    exact h3 k p (cancelExistingPending_pending tabId st k p hp) hbg a ha

theorem tabInv_startActiveTracking {st : TrackerState} (tabId : Nat) (url domain : String)
    (now : Int) (hbg : alistLookup tabId st.backgroundTabs = none) (h : TabInv st) :
    TabInv (startActiveTracking tabId url domain now st) := by
  have h2 := tabInv_endActiveTracking (tabInv_cancelExistingPending tabId h)
  obtain ⟨-, h2b, -⟩ := h2
  have hat : (endActiveTracking (cancelExistingPending tabId st)).activeTab = none :=
    endActiveTracking_activeTab _
  have hbt : (endActiveTracking (cancelExistingPending tabId st)).backgroundTabs =
      st.backgroundTabs := by
    rw [endActiveTracking_backgroundTabs, cancelExistingPending_backgroundTabs]
  refine ⟨?_, ?_, ?_⟩
  · intro a ha
    simp only [startActiveTracking] at ha
    rw [hat] at ha
    exact absurd ha (by simp)
  · intro k p hp hpbg
    simp only [startActiveTracking] at hp ⊢
    rw [alistLookup_set] at hp
    rw [hbt]
    by_cases hk : k = tabId
    · subst hk
      rw [if_pos rfl] at hp
      exact hbg
    · rw [if_neg hk] at hp
      have := h2b k p hp hpbg
      rw [hbt] at this
      exact this
  · intro k p hp hpbg a ha
    simp only [startActiveTracking] at ha
    rw [hat] at ha
    exact absurd ha (by simp)

theorem tabInv_maybeStartBackgroundTracking {st : TrackerState} (tabId : Nat) (url : String)
    (now : Int) (h : TabInv st) : TabInv (maybeStartBackgroundTracking tabId url now st) := by
  unfold maybeStartBackgroundTracking
  split
  · exact h
  split
  · exact h
  split
  · exact h
  rename_i hact
  split
  · exact h
  simp only []
  split
  · exact h
  split
  · exact h
  obtain ⟨h1, h2, h3⟩ := h
  have hane : ∀ a : TabState, st.activeTab = some a → a.tabId ≠ tabId := by
    intro a ha
    unfold activeTabIs at hact
    rw [ha] at hact
    simpa using hact
  refine ⟨?_, ?_, ?_⟩
  · intro a ha
    rw [cancelExistingPending_activeTab] at ha
    rw [cancelExistingPending_backgroundTabs]
    exact h1 a ha
  · intro k p hp hpbg
    rw [alistLookup_set] at hp
    rw [cancelExistingPending_backgroundTabs]
    by_cases hk : k = tabId
    · rw [if_pos hk] at hp
      cases hp
      simp at hpbg
    · rw [if_neg hk] at hp
      exact h2 k p (cancelExistingPending_pending tabId st k p hp) hpbg
  · intro k p hp hpbg a ha
    rw [alistLookup_set] at hp
    rw [cancelExistingPending_activeTab] at ha
    by_cases hk : k = tabId
    · subst hk
      exact hane a ha
    · rw [if_neg hk] at hp
      exact h3 k p (cancelExistingPending_pending tabId st k p hp) hpbg a ha

theorem tabInv_firePendingTimer {st : TrackerState} (tabId : Nat) (now : Int)
    (h : TabInv st) : TabInv (firePendingTimer tabId now st) := by
  obtain ⟨h1, h2, h3⟩ := h
  unfold firePendingTimer
  cases hp : alistLookup tabId st.pendingStarts with
  | none => exact ⟨h1, h2, h3⟩
  | some p =>
    simp only []
    by_cases hbg : p.isBackground = true
    · rw [if_pos hbg]
      refine ⟨?_, ?_, ?_⟩
      · intro a ha
        simp only [confirmBackgroundStart] at ha ⊢
        rw [alistLookup_set]
        have hne : a.tabId ≠ tabId := h3 tabId p hp hbg a ha
        rw [if_neg hne]
        exact h1 a ha
      · intro k q hq hqbg
        simp only [confirmBackgroundStart] at hq ⊢
        rw [alistLookup_set]
        have hq' := alistLookup_erase_some hq
        have hk : k ≠ tabId := by
          intro hk
          subst hk
          rw [alistLookup_erase] at hq
          simp at hq
        rw [if_neg hk]
        exact h2 k q hq' hqbg
      · intro k q hq hqbg a ha
        simp only [confirmBackgroundStart] at hq ha
        exact h3 k q (alistLookup_erase_some hq) hqbg a ha
    · rw [if_neg hbg]
      refine ⟨?_, ?_, ?_⟩
      · intro a ha
        simp only [confirmActiveStart] at ha ⊢
        cases ha
        exact h2 tabId p hp (by simpa using hbg)
      · intro k q hq hqbg
        simp only [confirmActiveStart] at hq ⊢
        exact h2 k q (alistLookup_erase_some hq) hqbg
      · intro k q hq hqbg a ha
        simp only [confirmActiveStart] at hq ha
        cases ha
        intro hk
        subst hk
        rw [alistLookup_erase] at hq
        simp at hq

theorem tabInv_handleTabActivated {st : TrackerState} (tabId : Nat) (windowFocused : Bool)
    (tabUrl : Option String) (now : Int) (h : TabInv st) :
    TabInv (handleTabActivated tabId windowFocused tabUrl now st) := by
  unfold handleTabActivated
  split
  · exact h
  split
  · exact h
  cases tabUrl with
  | none => exact tabInv_endActiveTracking h
  | some url =>
    simp only []
    split
    · exact tabInv_endActiveTracking h
    split
    · exact tabInv_endActiveTracking h
    refine tabInv_startActiveTracking tabId url (extractDomain url) now ?_
      (tabInv_endBackgroundTracking tabId h)
    rw [endBackgroundTracking_backgroundTabs, alistLookup_erase]
    simp

theorem tabInv_handleWindowFocusChanged {st : TrackerState} (ev : FocusChange) (now : Int)
    (h : TabInv st) : TabInv (handleWindowFocusChanged ev now st) := by
  unfold handleWindowFocusChanged
  split
  · exact h
  cases ev with
  | ownPopup => exact h
  | gainedFocus tabId windowFocused tabUrl =>
    exact tabInv_handleTabActivated tabId windowFocused tabUrl now h
  | gainedFocusNoTab => exact h
  | lostFocus =>
    cases hA : st.activeTab with
    | none => exact h
    | some wasActive =>
      simp only []
      split
      · exact tabInv_maybeStartBackgroundTracking wasActive.tabId wasActive.url now
          (tabInv_endActiveTracking h)
      · exact tabInv_endActiveTracking h

theorem tabInv_handleTabUrlChangedBackground {st : TrackerState} (tabId : Nat)
    (url domain : String) (isBlocked isTrackable : Bool) (now : Int) (h : TabInv st) :
    TabInv (handleTabUrlChangedBackground tabId url domain isBlocked isTrackable now st) := by
  unfold handleTabUrlChangedBackground
  cases hB : alistLookup tabId st.backgroundTabs with
  | none => exact h
  | some bgTab =>
    simp only []
    split
    · exact tabInv_endBackgroundTracking tabId h
    split
    · exact tabInv_maybeStartBackgroundTracking tabId url now
        (tabInv_endBackgroundTracking tabId h)
    · obtain ⟨h1, h2, h3⟩ := h
      refine ⟨?_, ?_, ?_⟩
      · intro a ha
        have hnone := h1 a ha
        have hne : a.tabId ≠ tabId := by
          intro hk
          rw [hk, hB] at hnone
          exact absurd hnone (by simp)
        rw [alistLookup_set, if_neg hne]
        exact hnone
      · intro k p hp hpbg
        have hnone := h2 k p hp hpbg
        have hne : k ≠ tabId := by
          intro hk
          rw [hk, hB] at hnone
          exact absurd hnone (by simp)
        rw [alistLookup_set, if_neg hne]
        exact hnone
      · exact h3

theorem tabInv_handleTabUrlChanged {st : TrackerState} (tabId : Nat) (url : String)
    (now : Int) (h : TabInv st) : TabInv (handleTabUrlChanged tabId url now st) := by
  unfold handleTabUrlChanged
  split
  · exact h
  simp only []
  cases hA : st.activeTab with
  | none => exact tabInv_handleTabUrlChangedBackground tabId url (extractDomain url) _ _ now h
  | some a =>
    simp only []
    split
    · split
      · exact tabInv_endActiveTracking h
      split
      · rename_i htab _ _
        refine tabInv_startActiveTracking tabId url (extractDomain url) now ?_
          (tabInv_endActiveTracking h)
        rw [endActiveTracking_backgroundTabs]
        rw [← htab]
        exact h.1 a hA
      · obtain ⟨h1, h2, h3⟩ := h
        rename_i htab _ _
        refine ⟨?_, ?_, ?_⟩
        · intro a' ha'
          cases ha'
          exact h1 a hA
        · intro k p hp hpbg
          exact h2 k p hp hpbg
        · intro k p hp hpbg a' ha'
          cases ha'
          exact h3 k p hp hpbg a hA
    · exact tabInv_handleTabUrlChangedBackground tabId url (extractDomain url) _ _ now h

theorem tabInv_handleTabAudibleChanged {st : TrackerState} (tabId : Nat) (audible : Bool)
    (tabUrl : Option String) (now : Int) (h : TabInv st) :
    TabInv (handleTabAudibleChanged tabId audible tabUrl now st) := by
  unfold handleTabAudibleChanged
  have hset : TabInv { st with audibleTabs := addTab tabId st.audibleTabs } :=
    tabInv_congr rfl rfl rfl h
  have hdel : TabInv { st with audibleTabs := removeTab tabId st.audibleTabs } :=
    tabInv_congr rfl rfl rfl h
  split
  · simp only []
    split
    · exact hset
    cases tabUrl with
    | none => exact hset
    | some url =>
      simp only []
      split
      · exact hset
      · exact tabInv_maybeStartBackgroundTracking tabId url now hset
  · simp only []
    split
    · exact tabInv_endBackgroundTracking tabId hdel
    · exact hdel

theorem tabInv_handleVisibilityChanged {st : TrackerState} (tabId : Nat) (isVisible : Bool)
    (tabUrl : Option String) (now : Int) (h : TabInv st) :
    TabInv (handleVisibilityChanged tabId isVisible tabUrl now st) := by
  unfold handleVisibilityChanged
  have hset : TabInv { st with visibleTabs := addTab tabId st.visibleTabs } :=
    tabInv_congr rfl rfl rfl h
  have hdel : TabInv { st with visibleTabs := removeTab tabId st.visibleTabs } :=
    tabInv_congr rfl rfl rfl h
  split
  · simp only []
    split
    · exact hset
    cases tabUrl with
    | none => exact hset
    | some url =>
      simp only []
      split
      · exact hset
      · exact tabInv_maybeStartBackgroundTracking tabId url now hset
  · simp only []
    split
    · exact tabInv_endBackgroundTracking tabId hdel
    · exact hdel

theorem tabInv_handleVideoPlayingChanged {st : TrackerState} (tabId : Nat)
    (hasPlayingVideo : Bool) (tabUrl : Option String) (now : Int) (h : TabInv st) :
    TabInv (handleVideoPlayingChanged tabId hasPlayingVideo tabUrl now st) := by
  unfold handleVideoPlayingChanged
  have hset : TabInv { st with videoPlayingTabs := addTab tabId st.videoPlayingTabs } :=
    tabInv_congr rfl rfl rfl h
  have hdel : TabInv { st with videoPlayingTabs := removeTab tabId st.videoPlayingTabs } :=
    tabInv_congr rfl rfl rfl h
  split
  · simp only []
    split
    · exact hset
    cases tabUrl with
    | none => exact hset
    | some url =>
      simp only []
      split
      · exact hset
      · exact tabInv_maybeStartBackgroundTracking tabId url now hset
  · simp only []
    split
    · exact tabInv_endBackgroundTracking tabId hdel
    · exact hdel

theorem tabInv_handleTabRemoved {st : TrackerState} (tabId : Nat) (h : TabInv st) :
    TabInv (handleTabRemoved tabId st) := by
  unfold handleTabRemoved
  simp only []
  have h1 : TabInv (cancelExistingPending tabId st) := tabInv_cancelExistingPending tabId h
  have h2 : TabInv { cancelExistingPending tabId st with
      visibleTabs := removeTab tabId (cancelExistingPending tabId st).visibleTabs,
      audibleTabs := removeTab tabId (cancelExistingPending tabId st).audibleTabs,
      videoPlayingTabs := removeTab tabId (cancelExistingPending tabId st).videoPlayingTabs } :=
    tabInv_congr rfl rfl rfl h1
  refine tabInv_endBackgroundTracking tabId ?_
  split
  · exact tabInv_endActiveTracking h2
  · exact h2

theorem tabInv_handleIdleStateChanged {st : TrackerState} (newState : String)
    (h : TabInv st) : TabInv (handleIdleStateChanged newState st) := by
  unfold handleIdleStateChanged
  simp only []
  have h1 : TabInv { st with isIdle := decide ¬newState = "active" } :=
    tabInv_congr rfl rfl rfl h
  split
  · exact tabInv_endAllBackground (tabInv_endActiveTracking h1)
  · exact h1

theorem tabInv_setPaused {st : TrackerState} (paused : Bool) (h : TabInv st) :
    TabInv (setPaused paused st) := by
  unfold setPaused
  split
  · exact h
  simp only []
  have h1 : TabInv { st with isPaused := paused } := tabInv_congr rfl rfl rfl h
  split
  · have h2 := tabInv_endAllBackground (tabInv_endActiveTracking h1)
    obtain ⟨h2a, -, -⟩ := h2
    refine ⟨?_, ?_, ?_⟩
    · intro a ha
      exact h2a a ha
    · intro k p hp hpbg
      exact absurd hp (by simp)
    · intro k p hp hpbg a ha
      exact absurd hp (by simp)
  · exact h1

theorem onTick_tabFields (now : Int) (st : TrackerState) :
    (onTick now st).activeTab = st.activeTab ∧
    (onTick now st).backgroundTabs = st.backgroundTabs ∧
    (onTick now st).pendingStarts = st.pendingStarts := by
  unfold onTick
  simp only []
  split
  · exact ⟨rfl, rfl, rfl⟩
  · exact ⟨rfl, rfl, rfl⟩

/-- Every atomic reaction of the event system preserves `TabInv`. -/
theorem tabInv_step {st st' : TrackerState} (h : TabInv st) (hs : Step st st') :
    TabInv st' := by
  cases hs with
  | tabActivated tabId windowFocused tabUrl now =>
    exact tabInv_handleTabActivated tabId windowFocused tabUrl now h
  | windowFocusChanged ev now => exact tabInv_handleWindowFocusChanged ev now h
  | tabUrlChanged tabId url now => exact tabInv_handleTabUrlChanged tabId url now h
  | tabAudibleChanged tabId audible tabUrl now =>
    exact tabInv_handleTabAudibleChanged tabId audible tabUrl now h
  | visibilityChanged tabId isVisible tabUrl now =>
    exact tabInv_handleVisibilityChanged tabId isVisible tabUrl now h
  | videoPlayingChanged tabId hasPlayingVideo tabUrl now =>
    exact tabInv_handleVideoPlayingChanged tabId hasPlayingVideo tabUrl now h
  | tabRemoved tabId => exact tabInv_handleTabRemoved tabId h
  | idleStateChanged newState => exact tabInv_handleIdleStateChanged newState h
  | pendingTimerFired tabId now => exact tabInv_firePendingTimer tabId now h
  | pauseChanged paused => exact tabInv_setPaused paused h
  | tick now =>
    obtain ⟨f1, f2, f3⟩ := onTick_tabFields now st
    exact tabInv_congr f1 f2 f3 h
  | bufferCleared now => exact tabInv_congr rfl rfl rfl h
  | settingsChanged s => exact tabInv_congr rfl rfl rfl h
  | initAudibleAdd tabId => exact tabInv_congr rfl rfl rfl h
  | initMaybeBackground tabId url now =>
    exact tabInv_maybeStartBackgroundTracking tabId url now h
  | initQueryIdle => exact tabInv_congr rfl rfl rfl h

/-- Every reachable tracker state satisfies the mutual-exclusion
invariant. -/
theorem tabInv_reachable {st : TrackerState} (h : Reachable st) : TabInv st := by
  induction h with
  | init t0 settings isPaused buffer =>
    refine ⟨?_, ?_, ?_⟩
    · intro a ha
      exact absurd ha (by simp [initialTracker])
    · intro k p hp
      exact absurd hp (by simp [initialTracker])
    · intro k p hp
      exact absurd hp (by simp [initialTracker])
  | step hr hs ih => exact tabInv_step ih hs

/-! ## Timer bookkeeping for the debounce gate (claim C4) -/

/-- Well-formedness of the timer bookkeeping, over the components
`(pendingStarts, cancelledTimers, nextTimerId)`: armed timers were drawn
from the counter, cancelled timers were drawn from the counter, no armed
timer has been cancelled, and distinct pendings hold distinct timers. -/
def TimersWFc (pend : List (Nat × PendingTabState)) (cancelled : List Nat) (next : Nat) : Prop :=
  (∀ k p, alistLookup k pend = some p → p.timeoutId < next) ∧
  (∀ id ∈ cancelled, id < next) ∧
  (∀ k p, alistLookup k pend = some p → p.timeoutId ∉ cancelled) ∧
  (∀ k p k' p', alistLookup k pend = some p → alistLookup k' pend = some p' →
    k ≠ k' → p.timeoutId ≠ p'.timeoutId)

/-- Timer well-formedness of a tracker state. -/
def TimersWF (st : TrackerState) : Prop :=
  TimersWFc st.pendingStarts st.cancelledTimers st.nextTimerId

theorem timersWFc_erase_cancel {pend : List (Nat × PendingTabState)} {cancelled : List Nat}
    {next : Nat} {k : Nat} {p : PendingTabState} (hp : alistLookup k pend = some p)
    (h : TimersWFc pend cancelled next) :
    TimersWFc (alistErase k pend) (p.timeoutId :: cancelled) next := by
  obtain ⟨h1, h2, h3, h4⟩ := h
  refine ⟨?_, ?_, ?_, ?_⟩
  · intro k' q hq
    exact h1 k' q (alistLookup_erase_some hq)
  · intro id hid
    rcases List.mem_cons.mp hid with hid | hid
    · rw [hid]
      exact h1 k p hp
    · exact h2 id hid
  · intro k' q hq
    have hq' := alistLookup_erase_some hq
    have hk : k' ≠ k := by
      intro he
      subst he
      rw [alistLookup_erase] at hq
      simp at hq
    intro hmem
    rcases List.mem_cons.mp hmem with he | hmem
    · exact h4 k' q k p hq' hp hk he
    · exact h3 k' q hq' hmem
  · intro a q a' q' hq hq' hne
    exact h4 a q a' q' (alistLookup_erase_some hq) (alistLookup_erase_some hq') hne

theorem timersWFc_arm {pend : List (Nat × PendingTabState)} {cancelled : List Nat}
    {next : Nat} {k : Nat} {q : PendingTabState} (hnone : alistLookup k pend = none)
    (hid : q.timeoutId = next) (h : TimersWFc pend cancelled next) :
    TimersWFc (alistSet k q pend) cancelled (next + 1) := by
  obtain ⟨h1, h2, h3, h4⟩ := h
  refine ⟨?_, ?_, ?_, ?_⟩
  · intro k' p hp
    rw [alistLookup_set] at hp
    by_cases hk : k' = k
    · rw [if_pos hk] at hp
      cases hp
      omega
    · rw [if_neg hk] at hp
      have := h1 k' p hp
      omega
  · intro id hmem
    have := h2 id hmem
    omega
  · intro k' p hp
    rw [alistLookup_set] at hp
    by_cases hk : k' = k
    · rw [if_pos hk] at hp
      cases hp
      intro hmem
      have := h2 q.timeoutId hmem
      omega
    · rw [if_neg hk] at hp
      exact h3 k' p hp
  · intro a p a' p' hp hp' hne
    rw [alistLookup_set] at hp hp'
    by_cases ha : a = k <;> by_cases ha' : a' = k
    · exact absurd (ha.trans ha'.symm) hne
    · rw [if_pos ha] at hp
      rw [if_neg ha'] at hp'
      cases hp
      have := h1 a' p' hp'
      omega
    · rw [if_neg ha] at hp
      rw [if_pos ha'] at hp'
      cases hp'
      have := h1 a p hp
      omega
    · rw [if_neg ha] at hp
      rw [if_neg ha'] at hp'
      exact h4 a p a' p' hp hp' hne

/-- Shape of `cancelExistingPending` on the timer components. -/
theorem cancelExistingPending_shape (tabId : Nat) (st : TrackerState) :
    (cancelExistingPending tabId st).nextTimerId = st.nextTimerId ∧
    (((cancelExistingPending tabId st).pendingStarts = st.pendingStarts ∧
      (cancelExistingPending tabId st).cancelledTimers = st.cancelledTimers ∧
      alistLookup tabId st.pendingStarts = none) ∨
     (∃ p, alistLookup tabId st.pendingStarts = some p ∧
      (cancelExistingPending tabId st).pendingStarts = alistErase tabId st.pendingStarts ∧
      (cancelExistingPending tabId st).cancelledTimers = p.timeoutId :: st.cancelledTimers)) := by
  unfold cancelExistingPending
  cases hp : alistLookup tabId st.pendingStarts with
  | none => exact ⟨rfl, Or.inl ⟨rfl, rfl, rfl⟩⟩
  | some p => exact ⟨rfl, Or.inr ⟨p, rfl, rfl, rfl⟩⟩

/-- Shape of `endActiveTracking` on the timer components. -/
theorem endActiveTracking_shape (st : TrackerState) :
    (endActiveTracking st).nextTimerId = st.nextTimerId ∧
    (((endActiveTracking st).pendingStarts = st.pendingStarts ∧
      (endActiveTracking st).cancelledTimers = st.cancelledTimers) ∨
     (∃ k p, alistLookup k st.pendingStarts = some p ∧
      (endActiveTracking st).pendingStarts = alistErase k st.pendingStarts ∧
      (endActiveTracking st).cancelledTimers = p.timeoutId :: st.cancelledTimers)) := by
  unfold endActiveTracking
  cases hA : st.activeTab with
  | none => exact ⟨rfl, Or.inl ⟨rfl, rfl⟩⟩
  | some a =>
    simp only []
    cases hp : alistLookup a.tabId st.pendingStarts with
    | none => exact ⟨rfl, Or.inl ⟨rfl, rfl⟩⟩
    | some p =>
      simp only []
      split
      · exact ⟨rfl, Or.inr ⟨a.tabId, p, hp, rfl, rfl⟩⟩
      · exact ⟨rfl, Or.inl ⟨rfl, rfl⟩⟩

theorem timersWF_endActiveTracking {st : TrackerState} (h : TimersWF st) :
    TimersWF (endActiveTracking st) := by
  obtain ⟨hn, hsh⟩ := endActiveTracking_shape st
  unfold TimersWF
  rw [hn]
  rcases hsh with ⟨hp, hc⟩ | ⟨k, p, hk, hp, hc⟩
  · rw [hp, hc]
    exact h
  · rw [hp, hc]
    exact timersWFc_erase_cancel hk h

theorem timersWF_cancelExistingPending {st : TrackerState} (tabId : Nat) (h : TimersWF st) :
    TimersWF (cancelExistingPending tabId st) := by
  obtain ⟨hn, hsh⟩ := cancelExistingPending_shape tabId st
  unfold TimersWF
  rw [hn]
  rcases hsh with ⟨hp, hc, -⟩ | ⟨p, hk, hp, hc⟩
  · rw [hp, hc]
    exact h
  · rw [hp, hc]
    exact timersWFc_erase_cancel hk h

theorem timersWF_startActiveTracking {st : TrackerState} (tabId : Nat) (url domain : String)
    (now : Int) (h : TimersWF st) : TimersWF (startActiveTracking tabId url domain now st) := by
  have h1 := timersWF_endActiveTracking (timersWF_cancelExistingPending tabId h)
  have hnone : alistLookup tabId
      (endActiveTracking (cancelExistingPending tabId st)).pendingStarts = none := by
    obtain ⟨-, hsh⟩ := endActiveTracking_shape (cancelExistingPending tabId st)
    have hbase : alistLookup tabId (cancelExistingPending tabId st).pendingStarts = none := by
      obtain ⟨-, hsh2⟩ := cancelExistingPending_shape tabId st
      rcases hsh2 with ⟨hp, -, hnn⟩ | ⟨p, -, hp, -⟩
      · rw [hp]
        exact hnn
      · rw [hp, alistLookup_erase]
        simp
    rcases hsh with ⟨hp, -⟩ | ⟨k, p, -, hp, -⟩
    · rw [hp]
      exact hbase
    · rw [hp, alistLookup_erase]
      split
      · rfl
      · exact hbase
  unfold startActiveTracking TimersWF
  simp only []
  exact timersWFc_arm hnone rfl h1

theorem timersWF_maybeStartBackgroundTracking {st : TrackerState} (tabId : Nat)
    (url : String) (now : Int) (h : TimersWF st) :
    TimersWF (maybeStartBackgroundTracking tabId url now st) := by
  unfold maybeStartBackgroundTracking
  split
  · exact h
  split
  · exact h
  split
  · exact h
  split
  · exact h
  simp only []
  split
  · exact h
  split
  · exact h
  have h1 := timersWF_cancelExistingPending tabId h
  have hnone : alistLookup tabId (cancelExistingPending tabId st).pendingStarts = none := by
    obtain ⟨-, hsh⟩ := cancelExistingPending_shape tabId st
    rcases hsh with ⟨hp, -, hnn⟩ | ⟨p, -, hp, -⟩
    · rw [hp]
      exact hnn
    · rw [hp, alistLookup_erase]
      simp
  unfold TimersWF
  simp only []
  exact timersWFc_arm hnone rfl h1

theorem startActive_base_none (tabId : Nat) (st : TrackerState) :
    alistLookup tabId (endActiveTracking (cancelExistingPending tabId st)).pendingStarts =
      none := by
  obtain ⟨-, hsh⟩ := endActiveTracking_shape (cancelExistingPending tabId st)
  have hbase : alistLookup tabId (cancelExistingPending tabId st).pendingStarts = none := by
    obtain ⟨-, hsh2⟩ := cancelExistingPending_shape tabId st
    rcases hsh2 with ⟨hp, -, hnn⟩ | ⟨p, -, hp, -⟩
    · rw [hp]
      exact hnn
    · rw [hp, alistLookup_erase]
      simp
  rcases hsh with ⟨hp, -⟩ | ⟨k, p, -, hp, -⟩
  · rw [hp]
    exact hbase
  · rw [hp, alistLookup_erase]
    split
    · rfl
    · exact hbase

theorem countKey_startActiveTracking (tabId : Nat) (url domain : String) (now : Int)
    (st : TrackerState) :
    countKey tabId (startActiveTracking tabId url domain now st).pendingStarts = 1 := by
  unfold startActiveTracking
  simp only []
  rw [countKey_set_self, (countKey_eq_zero_iff _ _).mpr (startActive_base_none tabId st)]
  rfl

theorem cancelled_mono_cancelExistingPending (tabId : Nat) (st : TrackerState) :
    st.cancelledTimers ⊆ (cancelExistingPending tabId st).cancelledTimers := by
  obtain ⟨-, hsh⟩ := cancelExistingPending_shape tabId st
  rcases hsh with ⟨-, hc, -⟩ | ⟨p, -, -, hc⟩
  · rw [hc]
    exact fun x hx => hx
  · rw [hc]
    exact List.subset_cons_self _ _

theorem cancelled_mono_endActiveTracking (st : TrackerState) :
    st.cancelledTimers ⊆ (endActiveTracking st).cancelledTimers := by
  obtain ⟨-, hsh⟩ := endActiveTracking_shape st
  rcases hsh with ⟨-, hc⟩ | ⟨k, p, -, -, hc⟩
  · rw [hc]
    exact fun x hx => hx
  · rw [hc]
    exact List.subset_cons_self _ _

theorem cancelled_mono_startActiveTracking (tabId : Nat) (url domain : String) (now : Int)
    (st : TrackerState) :
    st.cancelledTimers ⊆ (startActiveTracking tabId url domain now st).cancelledTimers := by
  have h1 := cancelled_mono_cancelExistingPending tabId st
  have h2 := cancelled_mono_endActiveTracking (cancelExistingPending tabId st)
  exact fun x hx => h2 (h1 hx)

theorem cancelled_mono_maybeStartBackgroundTracking (tabId : Nat) (url : String) (now : Int)
    (st : TrackerState) :
    st.cancelledTimers ⊆ (maybeStartBackgroundTracking tabId url now st).cancelledTimers := by
  unfold maybeStartBackgroundTracking
  split
  · exact fun x hx => hx
  split
  · exact fun x hx => hx
  split
  · exact fun x hx => hx
  split
  · exact fun x hx => hx
  simp only []
  split
  · exact fun x hx => hx
  split
  · exact fun x hx => hx
  exact cancelled_mono_cancelExistingPending tabId st

theorem prior_cancelExistingPending {tabId : Nat} {st : TrackerState} {p : PendingTabState}
    (hp : alistLookup tabId st.pendingStarts = some p) :
    p.timeoutId ∈ (cancelExistingPending tabId st).cancelledTimers := by
  unfold cancelExistingPending
  rw [hp]
  exact List.mem_cons_self _ _

theorem prior_startActiveTracking {tabId : Nat} {st : TrackerState} {p : PendingTabState}
    (url domain : String) (now : Int) (hp : alistLookup tabId st.pendingStarts = some p) :
    p.timeoutId ∈ (startActiveTracking tabId url domain now st).cancelledTimers :=
  cancelled_mono_endActiveTracking (cancelExistingPending tabId st)
    (prior_cancelExistingPending hp)

theorem prior_maybeStartBackgroundTracking {tabId : Nat} {st : TrackerState}
    {p : PendingTabState} (url : String) (now : Int)
    (hp : alistLookup tabId st.pendingStarts = some p) :
    alistLookup tabId (maybeStartBackgroundTracking tabId url now st).pendingStarts = some p ∨
    p.timeoutId ∈ (maybeStartBackgroundTracking tabId url now st).cancelledTimers := by
  unfold maybeStartBackgroundTracking
  split
  · exact Or.inl hp
  split
  · exact Or.inl hp
  split
  · exact Or.inl hp
  split
  · exact Or.inl hp
  simp only []
  split
  · exact Or.inl hp
  split
  · exact Or.inl hp
  exact Or.inr (prior_cancelExistingPending hp)

/-! ## Arm sequences (claim C4) -/

/-- One arming operation of the debounce gate aimed at a fixed tab: an
active-tracking arm (`startActiveTracking`) or a background-tracking arm
(`maybeStartBackgroundTracking`). -/
inductive ArmOp where
  | active (url domain : String) (now : Int) : ArmOp
  | background (url : String) (now : Int) : ArmOp

/-- Apply one arming operation to the tracker. -/
def applyArm (tabId : Nat) (st : TrackerState) : ArmOp → TrackerState
  | .active url domain now => startActiveTracking tabId url domain now st
  | .background url now => maybeStartBackgroundTracking tabId url now st

/-- Apply a sequence of arming operations, oldest first. -/
def applyArms (tabId : Nat) (ops : List ArmOp) (st : TrackerState) : TrackerState :=
  ops.foldl (applyArm tabId) st

theorem countKey_applyArm (tabId : Nat) (st : TrackerState) (op : ArmOp)
    (h : countKey tabId st.pendingStarts ≤ 1) :
    countKey tabId (applyArm tabId st op).pendingStarts ≤ 1 := by
  cases op with
  | active url domain now =>
    rw [applyArm, countKey_startActiveTracking]
  | background url now =>
    rw [applyArm]
    unfold maybeStartBackgroundTracking
    split
    · exact h
    split
    · exact h
    split
    · exact h
    split
    · exact h
    simp only []
    split
    · exact h
    split
    · exact h
    simp only []
    rw [countKey_set_self]
    have hnone : alistLookup tabId (cancelExistingPending tabId st).pendingStarts = none := by
      obtain ⟨-, hsh2⟩ := cancelExistingPending_shape tabId st
      rcases hsh2 with ⟨hp, -, hnn⟩ | ⟨p, -, hp, -⟩
      · rw [hp]
        exact hnn
      · rw [hp, alistLookup_erase]
        simp
    rw [(countKey_eq_zero_iff _ _).mpr hnone]
    simp

theorem timersWF_applyArm (tabId : Nat) (st : TrackerState) (op : ArmOp)
    (h : TimersWF st) : TimersWF (applyArm tabId st op) := by
  cases op with
  | active url domain now => exact timersWF_startActiveTracking tabId url domain now h
  | background url now => exact timersWF_maybeStartBackgroundTracking tabId url now h

theorem cancelled_mono_applyArms (tabId : Nat) (ops : List ArmOp) (st : TrackerState) :
    st.cancelledTimers ⊆ (applyArms tabId ops st).cancelledTimers := by
  induction ops generalizing st with
  | nil => exact fun x hx => hx
  | cons op ops ih =>
    have h1 : st.cancelledTimers ⊆ (applyArm tabId st op).cancelledTimers := by
      cases op with
      | active url domain now => exact cancelled_mono_startActiveTracking tabId url domain now st
      | background url now => exact cancelled_mono_maybeStartBackgroundTracking tabId url now st
    exact fun x hx => ih (applyArm tabId st op) (h1 hx)

/-! ## Claim theorems -/

/-- C4: for every sequence of arm operations (active or background) on
the same `tabId`, at most one `PendingConfirmation` exists for that tab
at any instant (instantiate `ops` at any prefix of the sequence), the
timer bookkeeping stays well-formed — so the surviving pending's timer
is live and no cancelled timer can fire — and any pending confirmation
armed before the sequence either is still the unique pending one or has
had its timer explicitly cancelled, so at most one confirmation (the
latest armed one) can ever fire. -/
theorem arm_sequence_single_pending (st : TrackerState) (tabId : Nat) (ops : List ArmOp)
    (hcount : countKey tabId st.pendingStarts ≤ 1) (hwf : TimersWF st) :
    countKey tabId (applyArms tabId ops st).pendingStarts ≤ 1 ∧
    TimersWF (applyArms tabId ops st) ∧
    (∀ p : PendingTabState, alistLookup tabId st.pendingStarts = some p →
      alistLookup tabId (applyArms tabId ops st).pendingStarts = some p ∨
      p.timeoutId ∈ (applyArms tabId ops st).cancelledTimers) := by
  induction ops generalizing st with
  | nil => exact ⟨hcount, hwf, fun p hp => Or.inl hp⟩
  | cons op ops ih =>
    have hc1 := countKey_applyArm tabId st op hcount
    have hw1 := timersWF_applyArm tabId st op hwf
    obtain ⟨ihc, ihw, ihp⟩ := ih (applyArm tabId st op) hc1 hw1
    refine ⟨ihc, ihw, ?_⟩
    intro p hp
    cases op with
    | active url domain now =>
      have hmem := prior_startActiveTracking url domain now hp
      exact Or.inr (cancelled_mono_applyArms tabId ops _ hmem)
    | background url now =>
      rcases prior_maybeStartBackgroundTracking url now hp with hstill | hmem
      · exact ihp p hstill
      · exact Or.inr (cancelled_mono_applyArms tabId ops _ hmem)

/-- Witness for C4 at a concrete input: two active arms for tab 1 on the
empty tracker leave exactly one pending confirmation, keep the timer
bookkeeping well-formed, and there was no pending beforehand. -/
theorem arm_sequence_single_pending_witness :
    countKey 1 (applyArms 1
      [ArmOp.active "https://a.example/" "a.example" 0,
       ArmOp.active "https://b.example/" "b.example" 100]
      (initialTracker 0 ⟨[], []⟩ false none)).pendingStarts ≤ 1 :=
  (arm_sequence_single_pending (initialTracker 0 ⟨[], []⟩ false none) 1
    [ArmOp.active "https://a.example/" "a.example" 0,
     ArmOp.active "https://b.example/" "b.example" 100]
    (by decide)
    ⟨fun k p hp => absurd hp (by simp [initialTracker]),
     fun id hid => absurd hid (by simp [initialTracker]),
     fun k p hp => absurd hp (by simp [initialTracker]),
     fun k p k' p' hp => absurd hp (by simp [initialTracker])⟩).1

/-- C5: in every reachable tracker state, no tab is simultaneously the
active tab and a member of the background-tracked tab map. -/
theorem active_tab_never_background {st : TrackerState} (h : Reachable st) :
    ∀ a : TabState, st.activeTab = some a →
      alistLookup a.tabId st.backgroundTabs = none :=
  (tabInv_reachable h).1

/-- Witness for C5 at a concrete reachable state: activate tab 1 on
`example.com` from the initial state and let its debounce timer fire, so
tab 1 is the confirmed active tab; the theorem shows it is not in the
background map. -/
theorem active_tab_never_background_witness :
    alistLookup 1 (firePendingTimer 1 5000
      (handleTabActivated 1 true (some "https://example.com/") 0
        (initialTracker 0 ⟨[], []⟩ false none))).backgroundTabs = none := by
  have hr : Reachable (firePendingTimer 1 5000
      (handleTabActivated 1 true (some "https://example.com/") 0
        (initialTracker 0 ⟨[], []⟩ false none))) :=
    Reachable.step
      (Reachable.step (Reachable.init 0 ⟨[], []⟩ false none)
        (Step.tabActivated _ 1 true (some "https://example.com/") 0))
      (Step.pendingTimerFired _ 1 5000)
  exact active_tab_never_background hr
    ⟨1, "example.com", "https://example.com/", false, 5000, true⟩ rfl

/-! ## Attribution sums (claim C2) -/

/-- Total `activeSeconds` over all domain buckets of a window. -/
def sumActive (doms : List (String × DomainBuffer)) : Int :=
  alistSumBy (fun b => b.activeSeconds) doms

/-- Total `activeSeconds + backgroundSeconds` over all domain buckets. -/
def sumActBg (doms : List (String × DomainBuffer)) : Int :=
  alistSumBy (fun b => b.activeSeconds + b.backgroundSeconds) doms

/-- Number of background tabs whose record is in tracking state. -/
def numTrackingBg (st : TrackerState) : Int :=
  (((st.backgroundTabs.map Prod.snd).filter (fun t => t.isTracking)).length : Int)

theorem attributeActive_sums (d u : String) (tu : Bool) (e : Int)
    (doms : List (String × DomainBuffer)) :
    sumActive (attributeActive d u tu e doms) = sumActive doms + e ∧
    sumActBg (attributeActive d u tu e doms) = sumActBg doms + e := by
  unfold attributeActive sumActive sumActBg
  cases hL : alistLookup d doms with
  | none =>
    simp only [hL, Option.isNone_none, if_true, alistLookup_set, if_pos rfl]
    constructor <;>
      · rw [alistSumBy_set, alistLookup_set, if_pos rfl]
        rw [alistSumBy_set, hL]
        simp
  | some b =>
    simp only [hL, Option.isNone_some, if_false, Bool.false_eq_true]
    constructor <;>
      · rw [alistSumBy_set, hL]
        simp
        try ring

theorem attributeBackground_sums (d u : String) (tu : Bool) (e : Int)
    (doms : List (String × DomainBuffer)) :
    sumActive (attributeBackground d u tu e doms) = sumActive doms ∧
    sumActBg (attributeBackground d u tu e doms) = sumActBg doms + e := by
  unfold attributeBackground sumActive sumActBg
  cases hL : alistLookup d doms with
  | none =>
    simp only [hL, Option.isNone_none, if_true, alistLookup_set, if_pos rfl]
    constructor <;>
      · rw [alistSumBy_set, alistLookup_set, if_pos rfl]
        rw [alistSumBy_set, hL]
        simp
  | some b =>
    simp only [hL, Option.isNone_some, if_false, Bool.false_eq_true]
    constructor <;>
      · rw [alistSumBy_set, hL]
        simp
        try ring

theorem bgFold_sums (tabs : List TabState) (settings : UserSettings) (e : Int)
    (doms : List (String × DomainBuffer)) :
    sumActive (tabs.foldl
      (fun d bgTab =>
        if bgTab.isTracking then
          attributeBackground bgTab.domain bgTab.url
            (shouldTrackFullUrl bgTab.domain settings) e d
        else d) doms) = sumActive doms ∧
    sumActBg (tabs.foldl
      (fun d bgTab =>
        if bgTab.isTracking then
          attributeBackground bgTab.domain bgTab.url
            (shouldTrackFullUrl bgTab.domain settings) e d
        else d) doms) =
      sumActBg doms + e * ((tabs.filter (fun t => t.isTracking)).length : Int) := by
  induction tabs generalizing doms with
  | nil => simp
  | cons t ts ih =>
    by_cases ht : t.isTracking = true
    · obtain ⟨ia, ib⟩ := ih (attributeBackground t.domain t.url
        (shouldTrackFullUrl t.domain settings) e doms)
      obtain ⟨ja, jb⟩ := attributeBackground_sums t.domain t.url
        (shouldTrackFullUrl t.domain settings) e doms
      simp only [List.foldl_cons, if_pos ht, List.filter_cons, ht, if_true]
      refine ⟨ia.trans ja, ?_⟩
      rw [ib, jb]
      simp only [List.length_cons]
      push_cast
      ring
    · simp only [List.foldl_cons, if_neg ht, List.filter_cons, ht]
      simpa using ih doms

/-- C2 (amended): a run of `onTick` that attributes time adds at most the
tick's elapsed seconds to the total `activeSeconds` of the window, and at
most elapsed seconds per tracking background tab on top of that to the
combined `activeSeconds + backgroundSeconds` total, relative to the
(possibly rotated) window it starts from. -/
theorem onTick_attribution_bound (st : TrackerState) (now : Int)
    (hrun : 0 < Int.fdiv (now - st.lastTickAt) 1000)
    (hp : st.isPaused = false) (hi : st.isIdle = false) :
    ∃ doms : List (String × DomainBuffer),
      (onTick now st).activityBuffer =
        some ⟨(rotateBuffer now st.activityBuffer).windowStart, doms⟩ ∧
      sumActive doms ≤
        sumActive (rotateBuffer now st.activityBuffer).domains +
          Int.fdiv (now - st.lastTickAt) 1000 ∧
      sumActBg doms ≤
        sumActBg (rotateBuffer now st.activityBuffer).domains +
          Int.fdiv (now - st.lastTickAt) 1000 * (1 + numTrackingBg st) := by
  have hc : (0 : Int) ≤ numTrackingBg st := Int.ofNat_nonneg _
  have he : (0 : Int) < Int.fdiv (now - st.lastTickAt) 1000 := hrun
  unfold onTick
  simp only []
  rw [if_neg (by simp [hp, hi]; omega)]
  cases hA : st.activeTab with
  | none =>
    simp only [hA]
    obtain ⟨fa, fb⟩ := bgFold_sums (st.backgroundTabs.map Prod.snd) st.settings
      (Int.fdiv (now - st.lastTickAt) 1000) (rotateBuffer now st.activityBuffer).domains
    refine ⟨_, rfl, ?_, ?_⟩
    · rw [fa]
      omega
    · rw [fb]
      unfold numTrackingBg at hc ⊢
      nlinarith
  | some a =>
    by_cases ht : a.isTracking = true
    · simp only [hA, ht, if_true]
      obtain ⟨ja, jb⟩ := attributeActive_sums a.domain a.url
        (shouldTrackFullUrl a.domain st.settings)
        (Int.fdiv (now - st.lastTickAt) 1000)
        (rotateBuffer now st.activityBuffer).domains
      obtain ⟨fa, fb⟩ := bgFold_sums (st.backgroundTabs.map Prod.snd) st.settings
        (Int.fdiv (now - st.lastTickAt) 1000)
        (attributeActive a.domain a.url (shouldTrackFullUrl a.domain st.settings)
          (Int.fdiv (now - st.lastTickAt) 1000)
          (rotateBuffer now st.activityBuffer).domains)
      refine ⟨_, rfl, ?_, ?_⟩
      · rw [fa, ja]
      · rw [fb, jb]
        unfold numTrackingBg
        refine le_of_eq ?_
        ring
    · simp only [hA, ht, if_false, Bool.false_eq_true]
      obtain ⟨fa, fb⟩ := bgFold_sums (st.backgroundTabs.map Prod.snd) st.settings
        (Int.fdiv (now - st.lastTickAt) 1000) (rotateBuffer now st.activityBuffer).domains
      refine ⟨_, rfl, ?_, ?_⟩
      · rw [fa]
        omega
      · rw [fb]
        unfold numTrackingBg at hc ⊢
        nlinarith

/-- The concrete input of C2: active tab on `a.example`, one tracking
background (audible) tab on `b.example`, fresh window at 300000 ms.
This state is reachable: activate tab 1 and let its debounce fire, then
let tab 2 become audible and let its debounce fire. -/
def c2State : TrackerState :=
  { activeTab := some ⟨1, "a.example", "https://a.example/", false, 300000, true⟩
    backgroundTabs := [(2, ⟨2, "b.example", "https://b.example/", true, 300000, true⟩)]
    visibleTabs := []
    audibleTabs := [2]
    videoPlayingTabs := []
    isIdle := false
    isPaused := false
    settings := ⟨[], []⟩
    pendingStarts := []
    cancelledTimers := []
    nextTimerId := 2
    activityBuffer := some ⟨300000, []⟩
    lastTickAt := 300000 }

theorem c2State_reachable : Reachable c2State := by
  have h1 : Reachable (firePendingTimer 2 300000
      (handleTabAudibleChanged 2 true (some "https://b.example/") 300000
        (firePendingTimer 1 300000
          (handleTabActivated 1 true (some "https://a.example/") 300000
            (initialTracker 300000 ⟨[], []⟩ false (some ⟨300000, []⟩)))))) :=
    Reachable.step
      (Reachable.step
        (Reachable.step
          (Reachable.step (Reachable.init 300000 ⟨[], []⟩ false (some ⟨300000, []⟩))
            (Step.tabActivated _ 1 true (some "https://a.example/") 300000))
          (Step.pendingTimerFired _ 1 300000))
        (Step.tabAudibleChanged _ 2 true (some "https://b.example/") 300000))
      (Step.pendingTimerFired _ 2 300000)
  have h2 : firePendingTimer 2 300000
      (handleTabAudibleChanged 2 true (some "https://b.example/") 300000
        (firePendingTimer 1 300000
          (handleTabActivated 1 true (some "https://a.example/") 300000
            (initialTracker 300000 ⟨[], []⟩ false (some ⟨300000, []⟩))))) = c2State := by
    decide
  exact h2 ▸ h1

/-- C2 (counterexample): `c2State` is a reachable tracker state with one
active tab and one tracking background tab; a 1-second tick attributes
2 seconds in total, so the sum of `activeSeconds + backgroundSeconds`
over the window's domains (2) exceeds the wall-clock seconds elapsed
since window start (301000 ms − 300000 ms = 1 s). -/
theorem window_sum_exceeds_wall_clock :
    Reachable c2State ∧
    (onTick 301000 c2State).activityBuffer =
      some ⟨300000, [("a.example", ⟨1, 0, []⟩), ("b.example", ⟨0, 1, []⟩)]⟩ ∧
    sumActBg [("a.example", (⟨1, 0, []⟩ : DomainBuffer)), ("b.example", ⟨0, 1, []⟩)] = 2 ∧
    ¬(sumActBg [("a.example", (⟨1, 0, []⟩ : DomainBuffer)), ("b.example", ⟨0, 1, []⟩)] ≤
        Int.fdiv (301000 - 300000) 1000) := by
  refine ⟨c2State_reachable, by decide, by decide, by decide⟩

/-- Witness for C2's amended bound: at `c2State` the tick yields total
sum 2 ≤ 0 + 1 · (1 + 1). -/
theorem onTick_attribution_bound_witness :
    ∃ doms : List (String × DomainBuffer),
      (onTick 301000 c2State).activityBuffer =
        some ⟨(rotateBuffer 301000 c2State.activityBuffer).windowStart, doms⟩ ∧
      sumActive doms ≤
        sumActive (rotateBuffer 301000 c2State.activityBuffer).domains +
          Int.fdiv (301000 - c2State.lastTickAt) 1000 ∧
      sumActBg doms ≤
        sumActBg (rotateBuffer 301000 c2State.activityBuffer).domains +
          Int.fdiv (301000 - c2State.lastTickAt) 1000 * (1 + numTrackingBg c2State) :=
  onTick_attribution_bound c2State 301000 (by decide) rfl rfl

/-- The failing input of C1: a stored window for the bucket starting at
0 ms holding 10 accumulated active seconds for `example.com`, and a tick
at 300000 ms, the first instant of the next 5-minute bucket. -/
def c1State : TrackerState :=
  { activeTab := none
    backgroundTabs := []
    visibleTabs := []
    audibleTabs := []
    videoPlayingTabs := []
    isIdle := false
    isPaused := false
    settings := ⟨[], []⟩
    pendingStarts := []
    cancelledTimers := []
    nextTimerId := 0
    activityBuffer := some ⟨0, [("example.com", ⟨10, 0, []⟩)]⟩
    lastTickAt := 299000 }

/-- C1: crossing the 5-minute boundary discards the old window.  Right
before the tick the old window is retrievable as final with its 10
accumulated seconds, but the rotation inside `onTick` replaces the
buffer with a fresh empty window, after which `getActivityWindow`
returns nothing at all: the accumulated per-domain seconds are lost and
can never be delivered or cleared by the caller.  (The source's own
comment at the rotation site says the old buffer "will be sent in the
next heartbeat".)  `c1State` is reachable: it is the tracker's state
right after initialization with this persisted buffer. -/
theorem window_rotation_discards_final_window :
    Reachable c1State ∧
    getActivityWindow 300000 c1State =
      some ⟨0, 5, true, [⟨"example.com", none, 10, 0⟩]⟩ ∧
    (onTick 300000 c1State).activityBuffer = some ⟨300000, []⟩ ∧
    getActivityWindow 300000 (onTick 300000 c1State) = none := by
  refine ⟨?_, by decide, by decide, by decide⟩
  have h : initialTracker 299000 ⟨[], []⟩ false
      (some ⟨0, [("example.com", ⟨10, 0, []⟩)]⟩) = c1State := by decide
  exact h ▸ Reachable.init 299000 ⟨[], []⟩ false (some ⟨0, [("example.com", ⟨10, 0, []⟩)]⟩)

/-- The counterexample input of C3: one armed non-background pending
confirmation for tab 1, while no tab is being tracked yet. -/
def c3State : TrackerState :=
  { activeTab := none
    backgroundTabs := []
    visibleTabs := []
    audibleTabs := []
    videoPlayingTabs := []
    isIdle := false
    isPaused := false
    settings := ⟨[], []⟩
    pendingStarts := [(1, ⟨1, "example.com", "https://example.com/", false, 0, 0⟩)]
    cancelledTimers := []
    nextTimerId := 1
    activityBuffer := none
    lastTickAt := 0 }

/-- C3 (counterexample): handling idle-enter with a pending confirmation
armed for a tab that has no confirmed record leaves that
`PendingConfirmation` armed and cancels no timer — contradicting the
claim that after idle-enter no pending confirmation remains armed. -/
theorem idle_enter_leaves_pending_armed :
    (handleIdleStateChanged "idle" c3State).isIdle = true ∧
    alistLookup 1 (handleIdleStateChanged "idle" c3State).pendingStarts =
      some ⟨1, "example.com", "https://example.com/", false, 0, 0⟩ ∧
    (handleIdleStateChanged "idle" c3State).cancelledTimers = [] := by
  refine ⟨by decide, by decide, by decide⟩

theorem endBackgroundTracking_misc (tabId : Nat) (st : TrackerState) :
    (endBackgroundTracking tabId st).isIdle = st.isIdle ∧
    (endBackgroundTracking tabId st).isPaused = st.isPaused := by
  unfold endBackgroundTracking
  repeat' split
  all_goals exact ⟨rfl, rfl⟩

theorem endActiveTracking_misc (st : TrackerState) :
    (endActiveTracking st).isIdle = st.isIdle ∧
    (endActiveTracking st).isPaused = st.isPaused := by
  unfold endActiveTracking
  repeat' split
  all_goals exact ⟨rfl, rfl⟩

theorem endAllBackgroundAux (ks : List Nat) (st : TrackerState)
    (hcov : ∀ e ∈ st.backgroundTabs, e.1 ∈ ks) :
    (ks.foldl (fun s tid => endBackgroundTracking tid s) st).backgroundTabs = [] ∧
    (ks.foldl (fun s tid => endBackgroundTracking tid s) st).activeTab = st.activeTab ∧
    (∀ k p, alistLookup k
        (ks.foldl (fun s tid => endBackgroundTracking tid s) st).pendingStarts = some p →
      alistLookup k st.pendingStarts = some p) ∧
    (ks.foldl (fun s tid => endBackgroundTracking tid s) st).isIdle = st.isIdle := by
  induction ks generalizing st with
  | nil =>
    refine ⟨?_, rfl, fun k p hp => hp, rfl⟩
    cases hb : st.backgroundTabs with
    | nil => exact hb
    | cons e rest => exact absurd (hcov e (by rw [hb]; exact List.mem_cons_self e rest)) (by simp)
  | cons k ks ih =>
    have hcov' : ∀ e ∈ (endBackgroundTracking k st).backgroundTabs, e.1 ∈ ks := by
      intro e he
      rw [endBackgroundTracking_backgroundTabs] at he
      have hmem := List.mem_filter.mp he
      have hne : e.1 ≠ k := by simpa using hmem.2
      have := hcov e hmem.1
      rcases List.mem_cons.mp this with h | h
      · exact absurd h hne
      · exact h
    obtain ⟨i1, i2, i3, i4⟩ := ih (endBackgroundTracking k st) hcov'
    simp only [List.foldl_cons]
    refine ⟨i1, ?_, ?_, ?_⟩
    · rw [i2, endBackgroundTracking_activeTab]
    · intro k' p hp
      exact endBackgroundTracking_pending k st k' p (i3 k' p hp)
    · rw [i4, (endBackgroundTracking_misc k st).1]

theorem endAllBackground_spec (st : TrackerState) :
    (endAllBackground st).backgroundTabs = [] ∧
    (endAllBackground st).activeTab = st.activeTab ∧
    (∀ k p, alistLookup k (endAllBackground st).pendingStarts = some p →
      alistLookup k st.pendingStarts = some p) ∧
    (endAllBackground st).isIdle = st.isIdle := by
  unfold endAllBackground
  exact endAllBackgroundAux (st.backgroundTabs.map Prod.fst) st
    (fun e he => List.mem_map_of_mem Prod.fst he)

theorem setPaused_clears_pendings (st : TrackerState) (h : st.isPaused = false) :
    (setPaused true st).pendingStarts = [] := by
  unfold setPaused
  rw [h]
  rw [if_neg (by simp)]
  simp only []
  rw [if_pos trivial]

/-- C3 (amended): idle-enter ends active tracking and removes every
background-tracked tab, and arms nothing new — every pending
confirmation that remains armed afterwards was armed before — but it
does not cancel pending confirmations of tabs without a confirmed
record; only pausing clears the whole pending map. -/
theorem idle_enter_teardown (st : TrackerState) (hIdle : st.isIdle = false) :
    (handleIdleStateChanged "idle" st).isIdle = true ∧
    (handleIdleStateChanged "idle" st).activeTab = none ∧
    (handleIdleStateChanged "idle" st).backgroundTabs = [] ∧
    (∀ k p, alistLookup k (handleIdleStateChanged "idle" st).pendingStarts = some p →
      alistLookup k st.pendingStarts = some p) ∧
    (∀ st2 : TrackerState, st2.isPaused = false → (setPaused true st2).pendingStarts = []) := by
  unfold handleIdleStateChanged
  simp only [hIdle]
  rw [if_pos (by simp)]
  have hmid : TrackerState.isIdle { st with isIdle := decide ¬"idle" = "active" } = true := by
    simp
  obtain ⟨e1, e2, e3, e4⟩ :=
    endAllBackground_spec (endActiveTracking { st with isIdle := decide ¬"idle" = "active" })
  refine ⟨?_, ?_, e1, ?_, setPaused_clears_pendings⟩
  · rw [e4, (endActiveTracking_misc _).1, hmid]
  · rw [e2, endActiveTracking_activeTab]
  · intro k p hp
    exact endActiveTracking_pending { st with isIdle := decide ¬"idle" = "active" } k p
      (e3 k p hp)

/-- Witness for C3's amended theorem at the concrete input `c3State`. -/
theorem idle_enter_teardown_witness :
    (handleIdleStateChanged "idle" c3State).isIdle = true ∧
    (handleIdleStateChanged "idle" c3State).activeTab = none ∧
    (handleIdleStateChanged "idle" c3State).backgroundTabs = [] ∧
    (∀ k p, alistLookup k (handleIdleStateChanged "idle" c3State).pendingStarts = some p →
      alistLookup k c3State.pendingStarts = some p) ∧
    (∀ st2 : TrackerState, st2.isPaused = false → (setPaused true st2).pendingStarts = []) :=
  idle_enter_teardown c3State rfl

/-- C7: a window-focus-change event whose newly focused window is the
extension's own popup surface leaves the handler's state — in particular
the active `TabRecord` — unchanged. -/
theorem focus_own_popup_keeps_active (st : TrackerState) (now : Int) :
    (handleWindowFocusChanged FocusChange.ownPopup now st).activeTab = st.activeTab ∧
    handleWindowFocusChanged FocusChange.ownPopup now st = st := by
  unfold handleWindowFocusChanged
  split <;> exact ⟨rfl, rfl⟩

/-- C9: `getAccessToken` returns the stored access token exactly when
tokens exist and `expiresAt > now`, returns `null` otherwise, and leaves
the manager state untouched — it never performs a refresh. -/
theorem getAccessToken_no_refresh_spec (st : AuthMState) (now : Int) :
    (getAccessToken st now).2 = st ∧
    (st.tokens = none → (getAccessToken st now).1 = none) ∧
    (∀ t : AuthTokens, st.tokens = some t →
      (getAccessToken st now).1 =
        if now < t.expiresAt then some t.accessToken else none) := by
  have hstate : (getAccessToken st now).2 = st := by
    unfold getAccessToken
    repeat' split
    all_goals rfl
  refine ⟨hstate, ?_, ?_⟩
  · intro hn
    unfold getAccessToken
    rw [hn]
  · intro t ht
    unfold getAccessToken
    rw [ht]
    simp only []
    by_cases he : t.expiresAt ≤ now
    · rw [if_pos he, if_neg (by omega)]
    · rw [if_neg he, if_pos (by omega)]

/-- Witness for C9 at concrete inputs: an unexpired token is returned,
an expired one yields `null`, and the state is unchanged in both cases. -/
theorem getAccessToken_no_refresh_spec_witness :
    (getAccessToken ⟨some ⟨"acc", "ref", 1000⟩⟩ 500).1 = some "acc" ∧
    (getAccessToken ⟨some ⟨"acc", "ref", 1000⟩⟩ 1000).1 = none ∧
    (getAccessToken ⟨some ⟨"acc", "ref", 1000⟩⟩ 500).2 = ⟨some ⟨"acc", "ref", 1000⟩⟩ := by
  refine ⟨?_, ?_, (getAccessToken_no_refresh_spec ⟨some ⟨"acc", "ref", 1000⟩⟩ 500).1⟩
  · rw [(getAccessToken_no_refresh_spec ⟨some ⟨"acc", "ref", 1000⟩⟩ 500).2.2
      ⟨"acc", "ref", 1000⟩ rfl]
    decide
  · rw [(getAccessToken_no_refresh_spec ⟨some ⟨"acc", "ref", 1000⟩⟩ 1000).2.2
      ⟨"acc", "ref", 1000⟩ rfl]
    decide

/-- C10: a tick that runs while paused or idle, or whose computed
elapsed whole seconds are zero or negative, leaves the activity buffer
(and with it every domain bucket and every accumulated second)
completely unchanged; only `lastTickAt` is advanced. -/
theorem onTick_skip_leaves_buffer (st : TrackerState) (now : Int)
    (h : st.isPaused = true ∨ st.isIdle = true ∨ Int.fdiv (now - st.lastTickAt) 1000 ≤ 0) :
    (onTick now st).activityBuffer = st.activityBuffer ∧
    (onTick now st).backgroundTabs = st.backgroundTabs ∧
    (onTick now st).activeTab = st.activeTab := by
  unfold onTick
  simp only []
  rw [if_pos ?_]
  · exact ⟨rfl, rfl, rfl⟩
  · rcases h with h | h | h <;> simp [h]

/-- Witness for C10: a paused tracker's tick changes no buffer. -/
theorem onTick_skip_leaves_buffer_witness :
    (onTick 301000 { c2State with isPaused := true }).activityBuffer =
      TrackerState.activityBuffer { c2State with isPaused := true } :=
  (onTick_skip_leaves_buffer { c2State with isPaused := true } 301000 (Or.inl rfl)).1

/-! ## Claim C8: the success path of the heartbeat -/

/-- Total reported active seconds of a delivered window. -/
def sumActivityActive (acts : List WindowActivity) : Int :=
  (acts.map (fun a => a.activeSeconds)).sum

/-- Total reported background seconds of a delivered window. -/
def sumActivityBg (acts : List WindowActivity) : Int :=
  (acts.map (fun a => a.backgroundSeconds)).sum

theorem updateStats_totalsAux (acts : List WindowActivity) (stats : DailyStats) :
    (acts.foldl foldActivityIntoStats stats).totalActiveTime =
      stats.totalActiveTime + 1000 * sumActivityActive acts ∧
    (acts.foldl foldActivityIntoStats stats).totalBackgroundTime =
      stats.totalBackgroundTime + 1000 * sumActivityBg acts := by
  induction acts generalizing stats with
  | nil => simp [sumActivityActive, sumActivityBg]
  | cons a acts ih =>
    obtain ⟨i1, i2⟩ := ih (foldActivityIntoStats stats a)
    simp only [List.foldl_cons]
    constructor
    · rw [i1]
      show stats.totalActiveTime + a.activeSeconds * 1000 + 1000 * sumActivityActive acts = _
      simp only [sumActivityActive, List.map_cons, List.sum_cons]
      ring
    · rw [i2]
      show stats.totalBackgroundTime + a.backgroundSeconds * 1000 + 1000 * sumActivityBg acts = _
      simp only [sumActivityBg, List.map_cons, List.sum_cons]
      ring

/-- C8: on a successful heartbeat delivery of an existing window, if the
window was final, the listener folds its totals into the durable daily
statistics and clears the aggregator's buffer (yielding a fresh empty
window at the current bucket); if the window was not final, tracker and
statistics are both left completely unchanged. -/
theorem heartbeat_success_final_folds_and_clears (auth : AuthMState) (now : Int)
    (st : TrackerState) (stats : DailyStats) (w : ActivityWindow)
    (hauth : isAuthenticated auth now = true)
    (hw : getActivityWindow now st = some w) :
    (w.isFinal = true →
      handleHeartbeatAlarm auth true now st stats =
        (clearCurrentBuffer now st, updateStatsFromWindow w stats) ∧
      (clearCurrentBuffer now st).activityBuffer = some ⟨roundToWindowBoundary now, []⟩ ∧
      (updateStatsFromWindow w stats).totalActiveTime =
        stats.totalActiveTime + 1000 * sumActivityActive w.activities ∧
      (updateStatsFromWindow w stats).totalBackgroundTime =
        stats.totalBackgroundTime + 1000 * sumActivityBg w.activities) ∧
    (w.isFinal = false →
      handleHeartbeatAlarm auth true now st stats = (st, stats)) := by
  constructor
  · intro hf
    refine ⟨?_, rfl, (updateStats_totalsAux w.activities stats).1,
      (updateStats_totalsAux w.activities stats).2⟩
    unfold handleHeartbeatAlarm
    rw [if_pos hauth, hw]
    simp [hf]
  · intro hf
    unfold handleHeartbeatAlarm
    rw [if_pos hauth, hw]
    simp [hf]

/-- The concrete heartbeat scenario for C8's witness: a final window for
the bucket at 0 ms holding 10 active seconds for `example.com`, read at
600000 ms. -/
def c8State : TrackerState :=
  { activeTab := none
    backgroundTabs := []
    visibleTabs := []
    audibleTabs := []
    videoPlayingTabs := []
    isIdle := false
    isPaused := false
    settings := ⟨[], []⟩
    pendingStarts := []
    cancelledTimers := []
    nextTimerId := 0
    activityBuffer := some ⟨0, [("example.com", ⟨10, 0, []⟩)]⟩
    lastTickAt := 599000 }

/-- Fresh daily statistics used by C8's witness. -/
def c8Stats : DailyStats := ⟨"2026-10-12", 0, 0, []⟩

/-- Witness for C8: delivering the final window of `c8State` with an
unexpired token clears the buffer and folds the totals. -/
theorem heartbeat_success_final_folds_and_clears_witness :
    handleHeartbeatAlarm ⟨some ⟨"tok", "ref", 1000000⟩⟩ true 600000 c8State c8Stats =
      (clearCurrentBuffer 600000 c8State,
       updateStatsFromWindow ⟨0, 5, true, [⟨"example.com", none, 10, 0⟩]⟩ c8Stats) :=
  ((heartbeat_success_final_folds_and_clears ⟨some ⟨"tok", "ref", 1000000⟩⟩ 600000 c8State
    c8Stats ⟨0, 5, true, [⟨"example.com", none, 10, 0⟩]⟩ (by decide) (by decide)).1 rfl).1

/-! ## Claim C6: `extractDomain` -/

theorem toNat_ofNat_valid (n : Nat) (h : Nat.isValidChar n) : (Char.ofNat n).toNat = n := by
  rw [Char.ofNat, dif_pos h]
  rfl

/-- The host alphabet never contains an ASCII uppercase letter after
lowercasing, nor a scheme or path delimiter. -/
theorem lowerChar_safe (c' : Char) (h : isHostChar c' = true) :
    ¬(65 ≤ (lowerChar c').toNat ∧ (lowerChar c').toNat ≤ 90) ∧
    lowerChar c' ≠ ':' ∧ lowerChar c' ≠ '/' := by
  unfold lowerChar
  by_cases hu : 65 ≤ c'.toNat ∧ c'.toNat ≤ 90
  · rw [if_pos hu]
    have hv : Nat.isValidChar (c'.toNat + 32) := Or.inl (by omega)
    have ht : (Char.ofNat (c'.toNat + 32)).toNat = c'.toNat + 32 := toNat_ofNat_valid _ hv
    refine ⟨?_, ?_, ?_⟩
    · rw [ht]
      omega
    · intro he
      have h2 := congrArg Char.toNat he
      rw [ht] at h2
      have h3 : Char.toNat ':' = 58 := by decide
      omega
    · intro he
      have h2 := congrArg Char.toNat he
      rw [ht] at h2
      have h3 : Char.toNat '/' = 47 := by decide
      omega
  · rw [if_neg hu]
    refine ⟨hu, ?_, ?_⟩
    · intro he
      rw [he] at h
      exact absurd h (by decide)
    · intro he
      rw [he] at h
      exact absurd h (by decide)

/-- Every character of a hostname produced by the URL model is the
lowercasing of a character of the host alphabet. -/
theorem urlHostnameChars_chars {cs h : List Char} (hh : urlHostnameChars cs = some h) :
    ∀ c ∈ h, ∃ c', isHostChar c' = true ∧ c = lowerChar c' := by
  unfold urlHostnameChars at hh
  cases hs : splitScheme cs with
  | none =>
    rw [hs] at hh
    cases hh
  | some rest =>
    rw [hs] at hh
    simp only [] at hh
    split at hh
    · split at hh
      · cases hh
      · split at hh
        · rename_i hall
          injection hh with hh2
          subst hh2
          intro c hc
          rcases List.mem_map.mp hc with ⟨c', hc', rfl⟩
          exact ⟨c', List.all_eq_true.mp hall c' hc', rfl⟩
        · cases hh
    · injection hh with hh2
      subst hh2
      intro c hc
      cases hc

/-- Characters survive `stripWww`. -/
theorem stripWww_mem {h : List Char} {c : Char} (hc : c ∈ stripWww h) : c ∈ h := by
  unfold stripWww at hc
  split at hc
  · exact List.mem_of_mem_drop hc
  · exact hc

/-- C6: `extractDomain` returns the empty string on every URL the host
URL parser rejects; on an accepted URL it returns exactly the parsed
hostname with one leading "www." stripped; and its output — the
normalized host — never contains an ASCII uppercase letter (the host was
lowercased), a ":" or a "/" (no scheme, port or path residue). -/
theorem extractDomain_spec (url : String) :
    (urlHostnameChars url.data = none → extractDomain url = "") ∧
    (∀ h : List Char, urlHostnameChars url.data = some h →
      (extractDomain url).data = stripWww h) ∧
    (∀ c : Char, c ∈ (extractDomain url).data →
      ¬(65 ≤ c.toNat ∧ c.toNat ≤ 90) ∧ c ≠ ':' ∧ c ≠ '/') := by
  refine ⟨?_, ?_, ?_⟩
  · intro hn
    unfold extractDomain
    rw [hn]
  · intro h hh
    unfold extractDomain
    rw [hh]
    simp only []
    rfl
  · intro c hc
    unfold extractDomain at hc
    cases hu : urlHostnameChars url.data with
    | none =>
      rw [hu] at hc
      exact absurd hc (by simp)
    | some h =>
      rw [hu] at hc
      have hc2 : c ∈ stripWww h := hc
      have hc3 := stripWww_mem hc2
      obtain ⟨c', hhost, rfl⟩ := urlHostnameChars_chars hu c hc3
      exact lowerChar_safe c' hhost

/-- Witness for C6 at concrete inputs: a URL with uppercase host,
userinfo, port, path and a "www." prefix normalizes to
`example.com`, and a malformed URL yields the empty string. -/
theorem extractDomain_spec_witness :
    (extractDomain "not a url" = "") ∧
    ((extractDomain "https://user@WWW.Example.COM:8080/a?b").data =
      stripWww ("www.example.com".data)) :=
  ⟨(extractDomain_spec "not a url").1 (by decide),
   (extractDomain_spec "https://user@WWW.Example.COM:8080/a?b").2.1
     ("www.example.com".data) (by decide)⟩

end ActivityTrackingExt
